import Mathlib

/-!
# pedsim_simulator: AgentCluster

A shallow embedding of `pedsim_simulator/src/element/agentcluster.cpp`.

Conventions of the embedding.

* `double` values are carried as rationals `ℚ`.  The file copies them,
  compares a footprint dimension with zero, negates and halves the footprint
  (both exact on doubles, halving up to underflow) and adds one random draw to
  a coordinate.  That addition is `doubleAdd`: the exact sum rounded to the
  nearest binary64 value, ties to even.  NaN, infinities, signed zero and
  overflow to infinity are not part of the model.
* `int` values are carried as `Int`.  The one `int` addition of the file,
  `staticid + i`, is `wrapInt32` of the exact sum: the 32-bit two's complement
  value the compiled program stores.  A vector size is taken to fit in `int`.
* A `Waypoint*` is `Option Nat`: `none` is the null pointer, `some a` the
  address `a`.  Pointer equality is equality of these values.
* The process-wide objects the file touches are passed explicitly: the state
  behind `RNG()`, the agent list of `SCENE`, the state of the file-level
  `generator`, and the value of `Ped::Tagent::staticid`.
* `agentIds[i]` on a `std::vector` with `i` out of range is undefined
  behaviour; the embedding returns `none` there.
-/

namespace Pedsim

/-! ## Machine arithmetic -/

/-- The value a 32-bit two's complement `int` holds for the exact integer `n`. -/
def wrapInt32 (n : Int) : Int := (n + 2147483648) % 4294967296 - 2147483648

/-- Rounding of a rational to the nearest integer, a tie going to the even one. -/
def roundHalfEven (q : ℚ) : Int :=
  if q - (⌊q⌋ : ℚ) < 1 / 2 then ⌊q⌋
  else if 1 / 2 < q - (⌊q⌋ : ℚ) then ⌊q⌋ + 1
  else if ⌊q⌋ % 2 = 0 then ⌊q⌋ else ⌊q⌋ + 1

/-- The spacing of binary64 values at the magnitude `m`: `2 ^ (e - 52)` where
`2 ^ e ≤ m < 2 ^ (e + 1)`, with `e` not below -1022 (subnormal range). -/
def ulp (m : ℚ) : ℚ := (2 : ℚ) ^ (max (Int.log 2 m) (-1022) - 52)

/-- The binary64 value nearest to the magnitude `m`, ties to even. -/
def roundMagnitude (m : ℚ) : ℚ := (roundHalfEven (m / ulp m) : ℚ) * ulp m

/-- The binary64 value nearest to `x`, ties to even (sign and magnitude). -/
def roundDouble (x : ℚ) : ℚ :=
  if 0 ≤ x then roundMagnitude x else -roundMagnitude (-x)

/-- The sum of two `double` values as the program computes it: the exact sum
rounded to the nearest binary64 value. -/
def doubleAdd (x y : ℚ) : ℚ := roundDouble (x + y)

/-! ## Collaborator types -/

/-- A `Waypoint*`; `none` is the null pointer. -/
abbrev WaypointPtr := Option Nat

/-- Modelled from the spec: the enumeration `Ped::Tagent::AgentType` is declared
outside this file; the spec lists it as `{ADULT, CHILD, ...}`.  Further
enumerators are kept by their numeric tag. -/
inductive AgentType where
  | ADULT : AgentType
  | CHILD : AgentType
  | OTHER : Nat → AgentType
  deriving DecidableEq, Repr

/-- Modelled from the spec: the enumeration `Agent::WaypointMode` is declared
outside this file; the spec names its default `LOOP`.  Further enumerators are
kept by their numeric tag. -/
inductive WaypointMode where
  | LOOP : WaypointMode
  | OTHER : Nat → WaypointMode
  deriving DecidableEq, Repr

/-- The class `Ped::Tvector`, restricted to the two coordinates this file uses. -/
structure Tvector where
  x : ℚ
  y : ℚ
  deriving DecidableEq

/-- The class `QSizeF`: a width and a height. -/
structure QSizeF where
  width : ℚ
  height : ℚ
  deriving DecidableEq

/-- The method `QSizeF::setWidth`. -/
def QSizeF.setWidth (s : QSizeF) (w : ℚ) : QSizeF := { s with width := w }

/-- The method `QSizeF::setHeight`. -/
def QSizeF.setHeight (s : QSizeF) (h : ℚ) : QSizeF := { s with height := h }

/-- Modelled from the spec: the class `Agent` is declared outside this file.
The record holds the two constructor arguments and every member that
`AgentCluster::dissolve` assigns, directly or through a setter; the members of
`a->stateMachine` are kept under their own names. -/
structure Agent where
  id : Int
  name : String
  x : ℚ
  y : ℚ
  initialPosX : ℚ
  initialPosY : ℚ
  type : AgentType
  vmax : ℚ
  vmaxDefault : ℚ
  chattingProbability : ℚ
  tellStoryProbability : ℚ
  groupTalkingProbability : ℚ
  talkingAndWalkingProbability : ℚ
  stateTalkingBaseTime : ℚ
  stateTellStoryBaseTime : ℚ
  stateGroupTalkingBaseTime : ℚ
  stateTalkingAndWalkingBaseTime : ℚ
  maxTalkingDistance : ℚ
  waypointMode : WaypointMode
  forceFactorDesired : ℚ
  forceFactorSocial : ℚ
  forceFactorObstacle : ℚ
  waypoints : List WaypointPtr
  deriving DecidableEq

/-- Modelled from the spec: the constructor `Agent(int id, std::string name)` is
outside this file.  It stores its two arguments; the waypoint list of a new
agent is empty and the remaining members, all of which `dissolve` overwrites,
start at zero, `ADULT` and `LOOP`. -/
def Agent.new (id : Int) (name : String) : Agent :=
  { id := id, name := name, x := 0, y := 0, initialPosX := 0, initialPosY := 0,
    type := AgentType.ADULT, vmax := 0, vmaxDefault := 0,
    chattingProbability := 0, tellStoryProbability := 0,
    groupTalkingProbability := 0, talkingAndWalkingProbability := 0,
    stateTalkingBaseTime := 0, stateTellStoryBaseTime := 0,
    stateGroupTalkingBaseTime := 0, stateTalkingAndWalkingBaseTime := 0,
    maxTalkingDistance := 0, waypointMode := WaypointMode.LOOP,
    forceFactorDesired := 0, forceFactorSocial := 0, forceFactorObstacle := 0,
    waypoints := [] }

/-- Modelled from the spec: `Agent::setPosition(x, y)` stores the live position. -/
def Agent.setPosition (a : Agent) (px py : ℚ) : Agent := { a with x := px, y := py }

/-- Modelled from the spec: `Agent::setType` stores the agent type. -/
def Agent.setType (a : Agent) (t : AgentType) : Agent := { a with type := t }

/-- Modelled from the spec: `Agent::setVmax` stores the maximum speed. -/
def Agent.setVmax (a : Agent) (v : ℚ) : Agent := { a with vmax := v }

/-- Modelled from the spec: `Agent::setForceFactorDesired` stores the weight. -/
def Agent.setForceFactorDesired (a : Agent) (f : ℚ) : Agent :=
  { a with forceFactorDesired := f }

/-- Modelled from the spec: `Agent::setForceFactorSocial` stores the weight. -/
def Agent.setForceFactorSocial (a : Agent) (f : ℚ) : Agent :=
  { a with forceFactorSocial := f }

/-- Modelled from the spec: `Agent::setForceFactorObstacle` stores the weight. -/
def Agent.setForceFactorObstacle (a : Agent) (f : ℚ) : Agent :=
  { a with forceFactorObstacle := f }

/-- Modelled from the spec: `Agent::addWaypoint` attaches one more waypoint
reference at the end of the agent's route. -/
def Agent.addWaypoint (a : Agent) (w : WaypointPtr) : Agent :=
  { a with waypoints := a.waypoints ++ [w] }

/-- The C++ function `std::to_string(int)`: decimal digits, with a leading minus
sign for a negative value. -/
def to_string (n : Int) : String := toString n

/-- The process-wide state `dissolve` works on: the generator behind `RNG()` and
the agents registered in `SCENE`, in registration order. -/
structure World (G : Type) where
  rng : G
  scene : List Agent

/-- Modelled from the spec: `Scene::addAgent(agent)` appends the agent to the
registry's agent list. -/
def World.addAgent {G : Type} (w : World G) (a : Agent) : World G :=
  { w with scene := w.scene ++ [a] }

/-! ## The cluster -/

/-- The data members of `AgentCluster` that this file reads or writes. -/
structure AgentCluster where
  position : Tvector
  count : Int
  agentIds : List Int
  distribution : QSizeF
  agentType : AgentType
  shallCreateGroups : Bool
  forceFactorDesired : ℚ
  forceFactorSocial : ℚ
  forceFactorObstacle : ℚ
  vmax : ℚ
  chattingProbability : ℚ
  tellStoryProbability : ℚ
  groupTalkingProbability : ℚ
  talkingAndWalkingProbability : ℚ
  maxTalkingDistance : ℚ
  waypoint_mode : WaypointMode
  stateTalkingBaseTime : ℚ
  stateTellStoryBaseTime : ℚ
  stateGroupTalkingBaseTime : ℚ
  stateTalkingAndWalkingBaseTime : ℚ
  waypoints : List WaypointPtr
  deriving DecidableEq

/-- The loop `for (int i = 0; i < countIn; i++) agentIds.push_back(staticid + i);`
of the constructor, entered at index `i` with `n` iterations left. -/
def pushIds (staticid : Int) : Nat → Nat → List Int → List Int
  | 0, _, agentIds => agentIds
  | n + 1, i, agentIds =>
    pushIds staticid n (i + 1) (agentIds ++ [wrapInt32 (staticid + (i : Int))])

/-- The constructor `AgentCluster::AgentCluster(xIn, yIn, countIn, agent_ids)`.
The parameter `staticid` is the value of `Ped::Tagent::staticid` at the call,
`normal mean stddev` is one draw of `normal_distribution<double>(mean, stddev)`
and `gen` is the state of the file-level `generator`.  The result is the new
cluster and the generator state after the draw of `vmax`. -/
def AgentCluster.new {N : Type} (staticid : Int) (normal : ℚ → ℚ → N → ℚ × N) (gen : N)
    (xIn yIn : ℚ) (countIn : Int) (agent_ids : List Int) : AgentCluster × N :=
  let agentIds : List Int :=
    if countIn ≠ (agent_ids.length : Int) then
      pushIds staticid countIn.toNat 0 []
    else
      agent_ids
  let draw := normal 0.6 0.2 gen
  ({ position := { x := xIn, y := yIn },
     count := countIn,
     agentIds := agentIds,
     distribution := { width := 0, height := 0 },
     agentType := AgentType.ADULT,
     shallCreateGroups := true,
     forceFactorDesired := 1.0,
     forceFactorSocial := 2.0,
     forceFactorObstacle := 10.0,
     vmax := draw.1,
     chattingProbability := 0.1,
     tellStoryProbability := 0.001,
     groupTalkingProbability := 0.001,
     talkingAndWalkingProbability := 0.001,
     maxTalkingDistance := 0.001,
     waypoint_mode := WaypointMode.LOOP,
     stateTalkingBaseTime := 6.0,
     stateTellStoryBaseTime := 6.0,
     stateGroupTalkingBaseTime := 6.0,
     stateTalkingAndWalkingBaseTime := 6.0,
     waypoints := [] }, draw.2)

/-- One statement `if (size != 0) coord += random(RNG());` of `dissolve`, where
`random` is the `uniform_real_distribution` over `[-size / 2, size / 2]`.
`uniform a b g` is one draw of that distribution from generator state `g`: the
value drawn and the state after the draw.  The sampler is a parameter of the
embedding and is taken to answer for every pair of bounds.  The `+=` is the
addition of two `double` values, `doubleAdd`. -/
def jitter {G : Type} (uniform : ℚ → ℚ → G → ℚ × G) (size coord : ℚ) (g : G) : ℚ × G :=
  if size ≠ 0 then
    (doubleAdd coord (uniform (-size / 2) (size / 2) g).1,
      (uniform (-size / 2) (size / 2) g).2)
  else
    (coord, g)

/-- The statement `foreach (Waypoint* waypoint, waypoints) a->addWaypoint(waypoint);`. -/
def addWaypoints (a : Agent) : List WaypointPtr → Agent
  | [] => a
  | w :: ws => addWaypoints (a.addWaypoint w) ws

/-- The agent built by iteration `i` of the loop of `dissolve` once its spawn
position is known: lines 84 and 91 to 113 of the source, in source order. -/
def initAgent (c : AgentCluster) (i : Nat) (agentId : Int) (randomizedX randomizedY : ℚ) :
    Agent :=
  let name := "person_" ++ to_string agentId
  let a := Agent.new (i : Int) name
  let a := a.setPosition randomizedX randomizedY
  let a := { a with initialPosX := randomizedX }
  let a := { a with initialPosY := randomizedY }
  let a := a.setType c.agentType
  let a := a.setVmax c.vmax
  let a := { a with vmaxDefault := c.vmax }
  let a := { a with chattingProbability := c.chattingProbability }
  let a := { a with tellStoryProbability := c.tellStoryProbability }
  let a := { a with groupTalkingProbability := c.groupTalkingProbability }
  let a := { a with talkingAndWalkingProbability := c.talkingAndWalkingProbability }
  let a := { a with stateTalkingBaseTime := c.stateTalkingBaseTime }
  let a := { a with stateTellStoryBaseTime := c.stateTellStoryBaseTime }
  let a := { a with stateGroupTalkingBaseTime := c.stateGroupTalkingBaseTime }
  let a := { a with stateTalkingAndWalkingBaseTime := c.stateTalkingAndWalkingBaseTime }
  let a := { a with maxTalkingDistance := c.maxTalkingDistance }
  let a := { a with waypointMode := c.waypoint_mode }
  let a := a.setForceFactorDesired c.forceFactorDesired
  let a := a.setForceFactorSocial c.forceFactorSocial
  let a := a.setForceFactorObstacle c.forceFactorObstacle
  addWaypoints a c.waypoints

/-- The agent that iteration `i` of the loop of `dissolve` builds from generator
state `g` when `agentIds[i]` is `agentId`: the x coordinate is drawn first, the
y coordinate second. -/
def spawnAgent {G : Type} (uniform : ℚ → ℚ → G → ℚ × G) (c : AgentCluster) (i : Nat)
    (agentId : Int) (g : G) : Agent :=
  initAgent c i agentId (jitter uniform c.distribution.width c.position.x g).1
    (jitter uniform c.distribution.height c.position.y
      (jitter uniform c.distribution.width c.position.x g).2).1

/-- The generator state after one iteration of the loop of `dissolve` entered
with generator state `g`. -/
def rngAfter {G : Type} (uniform : ℚ → ℚ → G → ℚ × G) (c : AgentCluster) (g : G) : G :=
  (jitter uniform c.distribution.height c.position.y
    (jitter uniform c.distribution.width c.position.x g).2).2

/-- One iteration of the loop of `dissolve` at index `i`: read `agentIds[i]`,
draw the position (x first, then y), initialise the agent, register it with the
scene, append it to the result list. -/
def dissolveBody {G : Type} (uniform : ℚ → ℚ → G → ℚ × G) (c : AgentCluster) (i : Nat)
    (agents : List Agent) (w : World G) : Option (List Agent × World G) :=
  match c.agentIds[i]? with
  | none => none
  | some agentId =>
    let rx := jitter uniform c.distribution.width c.position.x w.rng
    let ry := jitter uniform c.distribution.height c.position.y rx.2
    let a := initAgent c i agentId rx.1 ry.1
    let w := ({ w with rng := ry.2 } : World G).addAgent a
    some (agents ++ [a], w)

/-- The loop `for (int i = 0; i < count; ++i)` of `dissolve`, entered at index `i`
with `n` iterations left. -/
def dissolveLoop {G : Type} (uniform : ℚ → ℚ → G → ℚ × G) (c : AgentCluster) :
    Nat → Nat → List Agent → World G → Option (List Agent × World G)
  | 0, _, agents, w => some (agents, w)
  | n + 1, i, agents, w =>
    match dissolveBody uniform c i agents w with
    | none => none
    | some r => dissolveLoop uniform c n (i + 1) r.1 r.2

/-- The method `AgentCluster::dissolve`: the returned list of agents and the
process-wide state after the call, or `none` when `agentIds[i]` is read out of
range.  The loop runs for `i = 0, ..., count - 1`, that is `count.toNat` times. -/
def dissolve {G : Type} (uniform : ℚ → ℚ → G → ℚ × G) (c : AgentCluster) (w : World G) :
    Option (List Agent × World G) :=
  dissolveLoop uniform c c.count.toNat 0 [] w

/-- The method `QList::removeAll(value)`: the list without any entry equal to
`value`, order kept, and the number of entries removed. -/
def removeAll (l : List WaypointPtr) (v : WaypointPtr) : List WaypointPtr × Int :=
  (l.filter (fun x => x != v), (l.count v : Int))

/-- The method `AgentCluster::setCount`. -/
def AgentCluster.setCount (c : AgentCluster) (countIn : Int) : AgentCluster :=
  { c with count := countIn }

/-- The method `AgentCluster::addWaypoint`. -/
def AgentCluster.addWaypoint (c : AgentCluster) (waypointIn : WaypointPtr) : AgentCluster :=
  { c with waypoints := c.waypoints ++ [waypointIn] }

/-- The method `AgentCluster::removeWaypoint`: the value returned and the cluster
after the call. -/
def AgentCluster.removeWaypoint (c : AgentCluster) (waypointIn : WaypointPtr) :
    Bool × AgentCluster :=
  let r := removeAll c.waypoints waypointIn
  let removedWaypoints := r.2
  let c := { c with waypoints := r.1 }
  if removedWaypoints > 0 then (true, c) else (false, c)

/-- The method `AgentCluster::setDistribution`. -/
def AgentCluster.setDistribution (c : AgentCluster) (xIn yIn : ℚ) : AgentCluster :=
  { c with distribution := (c.distribution.setWidth xIn).setHeight yIn }

/-- The method `AgentCluster::setDistributionWidth`. -/
def AgentCluster.setDistributionWidth (c : AgentCluster) (xIn : ℚ) : AgentCluster :=
  { c with distribution := c.distribution.setWidth xIn }

/-- The method `AgentCluster::setDistributionHeight`. -/
def AgentCluster.setDistributionHeight (c : AgentCluster) (yIn : ℚ) : AgentCluster :=
  { c with distribution := c.distribution.setHeight yIn }

/-- The method `AgentCluster::getCount`. -/
def AgentCluster.getCount (c : AgentCluster) : Int := c.count

/-- The method `AgentCluster::getWaypoints`. -/
def AgentCluster.getWaypoints (c : AgentCluster) : List WaypointPtr := c.waypoints

/-- The method `AgentCluster::getPosition`. -/
def AgentCluster.getPosition (c : AgentCluster) : Tvector := c.position

/-- The method `AgentCluster::getShallCreateGroups`. -/
def AgentCluster.getShallCreateGroups (c : AgentCluster) : Bool := c.shallCreateGroups

/-- The method `AgentCluster::setShallCreateGroups`. -/
def AgentCluster.setShallCreateGroups (c : AgentCluster) (shallCreateGroupsIn : Bool) :
    AgentCluster :=
  { c with shallCreateGroups := shallCreateGroupsIn }

/-- The method `AgentCluster::getDistribution`. -/
def AgentCluster.getDistribution (c : AgentCluster) : QSizeF := c.distribution

/-- The Qt signals of `AgentCluster` that this file emits, with their payload. -/
inductive Signal where
  | positionChanged : ℚ → ℚ → Signal
  | typeChanged : AgentType → Signal
  deriving DecidableEq

/-- The method `AgentCluster::setPosition(const Ped::Tvector&)`: the cluster after
the call and the signals emitted during the call, in order. -/
def AgentCluster.setPositionVector (c : AgentCluster) (positionIn : Tvector) :
    AgentCluster × List Signal :=
  let c := { c with position := positionIn }
  (c, [Signal.positionChanged c.position.x c.position.y])

/-- The method `AgentCluster::setPosition(double, double)`, which forwards to the
overload on `Ped::Tvector`. -/
def AgentCluster.setPosition (c : AgentCluster) (px py : ℚ) : AgentCluster × List Signal :=
  c.setPositionVector { x := px, y := py }

/-- The method `AgentCluster::setX`: the cluster after the call and the signals
emitted during the call. -/
def AgentCluster.setX (c : AgentCluster) (xIn : ℚ) : AgentCluster × List Signal :=
  let c := { c with position := { c.position with x := xIn } }
  (c, [Signal.positionChanged c.position.x c.position.y])

/-- The method `AgentCluster::setY`: the cluster after the call and the signals
emitted during the call. -/
def AgentCluster.setY (c : AgentCluster) (yIn : ℚ) : AgentCluster × List Signal :=
  let c := { c with position := { c.position with y := yIn } }
  (c, [Signal.positionChanged c.position.x c.position.y])

/-- The method `AgentCluster::setType`: the cluster after the call and the signals
emitted during the call. -/
def AgentCluster.setType (c : AgentCluster) (typeIn : AgentType) : AgentCluster × List Signal :=
  let c := { c with agentType := typeIn }
  (c, [Signal.typeChanged c.agentType])

/-- The method `AgentCluster::setVisiblePosition`, which forwards the two
coordinates of its `QPointF` to `setPosition(double, double)`. -/
def AgentCluster.setVisiblePosition (c : AgentCluster) (px py : ℚ) :
    AgentCluster × List Signal :=
  c.setPosition px py

/-- Modelled from the spec: the class `WaitingQueue` is declared outside this file.
A `WaitingQueue*` is the null pointer, or points at an object at some address that
implements the Waypoint capability, or points at an object that does not. -/
inductive WaitingQueuePtr where
  | null : WaitingQueuePtr
  | waypointAt : Nat → WaitingQueuePtr
  | notWaypointAt : Nat → WaitingQueuePtr
  deriving DecidableEq

/-- The expression `dynamic_cast<Waypoint*>(queueIn)`: the address of the object
when it implements the Waypoint capability, the null pointer otherwise. -/
def dynamic_cast_Waypoint : WaitingQueuePtr → WaypointPtr
  | WaitingQueuePtr.null => none
  | WaitingQueuePtr.waypointAt a => some a
  | WaitingQueuePtr.notWaypointAt _ => none

/-- The method `AgentCluster::addWaitingQueue`. -/
def AgentCluster.addWaitingQueue (c : AgentCluster) (queueIn : WaitingQueuePtr) :
    AgentCluster :=
  let waypoint := dynamic_cast_Waypoint queueIn
  { c with waypoints := c.waypoints ++ [waypoint] }

/-- The method `AgentCluster::removeWaitingQueue`: the value returned and the
cluster after the call. -/
def AgentCluster.removeWaitingQueue (c : AgentCluster) (queueIn : WaitingQueuePtr) :
    Bool × AgentCluster :=
  let waypoint := dynamic_cast_Waypoint queueIn
  let r := removeAll c.waypoints waypoint
  let removedWaitingQueues := r.2
  (decide (removedWaitingQueues > 0), { c with waypoints := r.1 })

/-- A call of one mutating method of the configuration surface of
`AgentCluster`, with its arguments. -/
inductive Call where
  | setCount : Int → Call
  | addWaypoint : WaypointPtr → Call
  | removeWaypoint : WaypointPtr → Call
  | addWaitingQueue : WaitingQueuePtr → Call
  | removeWaitingQueue : WaitingQueuePtr → Call
  | setPositionVector : Tvector → Call
  | setPosition : ℚ → ℚ → Call
  | setX : ℚ → Call
  | setY : ℚ → Call
  | setType : AgentType → Call
  | setShallCreateGroups : Bool → Call
  | setDistribution : ℚ → ℚ → Call
  | setDistributionWidth : ℚ → Call
  | setDistributionHeight : ℚ → Call
  | setVisiblePosition : ℚ → ℚ → Call

/-- The effect of one call on the cluster: the cluster after the call and the
signals emitted during the call.  A method whose body has no `emit` statement
emits nothing. -/
def Call.run : Call → AgentCluster → AgentCluster × List Signal
  | Call.setCount n, c => (c.setCount n, [])
  | Call.addWaypoint w, c => (c.addWaypoint w, [])
  | Call.removeWaypoint w, c => ((c.removeWaypoint w).2, [])
  | Call.addWaitingQueue q, c => (c.addWaitingQueue q, [])
  | Call.removeWaitingQueue q, c => ((c.removeWaitingQueue q).2, [])
  | Call.setPositionVector p, c => c.setPositionVector p
  | Call.setPosition x y, c => c.setPosition x y
  | Call.setX x, c => c.setX x
  | Call.setY y, c => c.setY y
  | Call.setType t, c => c.setType t
  | Call.setShallCreateGroups b, c => (c.setShallCreateGroups b, [])
  | Call.setDistribution w h, c => (c.setDistribution w h, [])
  | Call.setDistributionWidth w, c => (c.setDistributionWidth w, [])
  | Call.setDistributionHeight h, c => (c.setDistributionHeight h, [])
  | Call.setVisiblePosition x y, c => c.setVisiblePosition x y

/-- Whether the call is one of the three setters of the distribution footprint. -/
def Call.setsFootprint : Call → Bool
  | Call.setDistribution _ _ => true
  | Call.setDistributionWidth _ => true
  | Call.setDistributionHeight _ => true
  | _ => false

/-- The invariant the spec states for the distribution footprint: neither
dimension is negative. -/
def AgentCluster.footprintOk (c : AgentCluster) : Prop :=
  0 ≤ c.distribution.width ∧ 0 ≤ c.distribution.height

/-- The agent `a` carries the values that cluster `c` holds for the agent type,
vmax (also as default vmax), the force factors, the probabilities, the maximal
talking distance, the waypoint mode and the four state-machine base times. -/
def carriesScalars (c : AgentCluster) (a : Agent) : Prop :=
  a.type = c.agentType ∧ a.vmax = c.vmax ∧ a.vmaxDefault = c.vmax ∧
  a.forceFactorDesired = c.forceFactorDesired ∧
  a.forceFactorSocial = c.forceFactorSocial ∧
  a.forceFactorObstacle = c.forceFactorObstacle ∧
  a.chattingProbability = c.chattingProbability ∧
  a.tellStoryProbability = c.tellStoryProbability ∧
  a.groupTalkingProbability = c.groupTalkingProbability ∧
  a.talkingAndWalkingProbability = c.talkingAndWalkingProbability ∧
  a.maxTalkingDistance = c.maxTalkingDistance ∧
  a.waypointMode = c.waypoint_mode ∧
  a.stateTalkingBaseTime = c.stateTalkingBaseTime ∧
  a.stateTellStoryBaseTime = c.stateTellStoryBaseTime ∧
  a.stateGroupTalkingBaseTime = c.stateGroupTalkingBaseTime ∧
  a.stateTalkingAndWalkingBaseTime = c.stateTalkingAndWalkingBaseTime

/-- The process-wide objects the constructor of `AgentCluster` touches: the
counter `Ped::Tagent::staticid` and the state of the file-level `generator`. -/
structure Globals (N : Type) where
  staticid : Int
  generator : N

/-- The expression `AgentCluster(xIn, yIn, countIn, agent_ids)` as a step on the
process-wide objects: the constructor reads `staticid`, has no assignment to it,
and draws `vmax` from `generator`. -/
def construct {N : Type} (normal : ℚ → ℚ → N → ℚ × N) (gl : Globals N)
    (xIn yIn : ℚ) (countIn : Int) (agent_ids : List Int) : AgentCluster × Globals N :=
  let r := AgentCluster.new gl.staticid normal gl.generator xIn yIn countIn agent_ids
  (r.1, { gl with generator := r.2 })

/-- A cluster object together with the process-wide objects `dissolve` works on. -/
structure ProgramState (G : Type) where
  cluster : AgentCluster
  world : World G

/-- The call `cluster.dissolve()` as a step on the program state: the body of
`dissolve` reads the data members of the cluster and has no assignment to any of
them, so the step carries the cluster over as it is. -/
def callDissolve {G : Type} (uniform : ℚ → ℚ → G → ℚ × G) (s : ProgramState G) :
    Option (List Agent × ProgramState G) :=
  match dissolve uniform s.cluster s.world with
  | none => none
  | some r => some (r.1, { s with world := r.2 })

/-- One recorded draw of a uniform sampler: the bounds asked for and the value
returned. -/
structure Draw where
  lo : ℚ
  hi : ℚ
  value : ℚ
  deriving DecidableEq

/-- The sampler `uniform` with a log: each draw behaves as `uniform` does on the
underlying generator state and is appended to the list of draws made so far. -/
def traced {G : Type} (uniform : ℚ → ℚ → G → ℚ × G) (a b : ℚ) (s : G × List Draw) :
    ℚ × (G × List Draw) :=
  ((uniform a b s.1).1,
    ((uniform a b s.1).2, s.2 ++ [{ lo := a, hi := b, value := (uniform a b s.1).1 }]))

/-- The world of a run with a traced sampler, without the log. -/
def World.eraseLog {G : Type} (w : World (G × List Draw)) : World G :=
  { rng := w.rng.1, scene := w.scene }

/-- The draws `ds` are those the spec attributes to the spawned agent `a` of
cluster `c`, in order: first an x draw over the width when the width is not
zero, and then `a.x` is the double sum of the centroid x and the value drawn,
otherwise no x draw and `a.x` is the centroid x; then the same for y over the
height. -/
def accountsFor (c : AgentCluster) (a : Agent) (ds : List Draw) : Prop :=
  ∃ (xs ys : List Draw), ds = xs ++ ys ∧
    (if c.distribution.width ≠ 0 then
      ∃ d : ℚ, xs = [{ lo := -c.distribution.width / 2, hi := c.distribution.width / 2,
                       value := d }] ∧ a.x = doubleAdd c.position.x d
    else xs = [] ∧ a.x = c.position.x) ∧
    (if c.distribution.height ≠ 0 then
      ∃ d : ℚ, ys = [{ lo := -c.distribution.height / 2, hi := c.distribution.height / 2,
                       value := d }] ∧ a.y = doubleAdd c.position.y d
    else ys = [] ∧ a.y = c.position.y)

/-- The number of footprint dimensions of cluster `c` that are not zero. -/
def nonzeroDims (c : AgentCluster) : Nat :=
  (if c.distribution.width ≠ 0 then 1 else 0) + (if c.distribution.height ≠ 0 then 1 else 0)

/-! ## A concrete scenario

The cluster of the spec's example: three agents with ids 101, 102, 103 at
(10, 10), footprint (0, 0), two waypoints. -/

/-- A uniform sampler that returns the midpoint of its interval and counts the
draws in its state. -/
def midpointSampler (a b : ℚ) (g : Nat) : ℚ × Nat := ((a + b) / 2, g + 1)

/-- A normal sampler that returns its mean and counts the draws in its state. -/
def meanSampler (mean _stddev : ℚ) (g : Nat) : ℚ × Nat := (mean, g + 1)

/-- The example cluster: constructed at (10, 10) with ids 101, 102, 103, then
given the waypoints at addresses 1 and 2. -/
def exampleCluster : AgentCluster :=
  (((AgentCluster.new 0 meanSampler 0 10 10 3 [101, 102, 103]).1.addWaypoint
    (some 1)).addWaypoint (some 2))

/-- A uniform sampler that returns the lower end of its interval on an even
generator state and the upper end on an odd one, and counts the draws. -/
def alternatingSampler (a b : ℚ) (g : Nat) : ℚ × Nat := (if g % 2 = 0 then a else b, g + 1)

/-- The example cluster with its footprint set to (4, 0). -/
def wideCluster : AgentCluster := exampleCluster.setDistribution 4 0

/-- The example cluster with its footprint set to (4, 6). -/
def scatteredCluster : AgentCluster := exampleCluster.setDistribution 4 6

/-- The example cluster after `setCount(1)`: three ids, one agent asked for. -/
def shortCountCluster : AgentCluster := exampleCluster.setCount 1

/-- The example cluster after `setCount(5)`: three ids, five agents asked for. -/
def longCountCluster : AgentCluster := exampleCluster.setCount 5

/-- A uniform sampler that returns the lower end of its interval and counts the
draws in its state. -/
def lowerSampler (a _b : ℚ) (g : Nat) : ℚ × Nat := (a, g + 1)

/-- A uniform sampler that returns the upper end of its interval lowered by the
`2 ^ 52`-th part of it, and counts the draws in its state. -/
def belowUpperSampler (_a b : ℚ) (g : Nat) : ℚ × Nat := (b - b / 2 ^ 52, g + 1)

/-- A cluster of one agent at (1, 1) with footprint (3 * 2 ^ -54, 0). -/
def tinyCluster : AgentCluster :=
  (AgentCluster.new 0 meanSampler 0 1 1 1 [7]).1.setDistribution (3 / 2 ^ 54) 0

/-- The example world: generator state 0 and an empty scene. -/
def exampleWorld : World Nat := { rng := 0, scene := [] }

/-! ## Auxiliary facts about the embedding -/

theorem roundHalfEven_ge_floor (q : ℚ) : ⌊q⌋ ≤ roundHalfEven q := by
  unfold roundHalfEven
  split_ifs <;> omega

theorem roundHalfEven_le_floor_succ (q : ℚ) : roundHalfEven q ≤ ⌊q⌋ + 1 := by
  unfold roundHalfEven
  split_ifs <;> omega

theorem roundHalfEven_of_lt (q : ℚ) (f : Int) (h1 : (f : ℚ) ≤ q) (h2 : q < f + 1 / 2) :
    roundHalfEven q = f := by
  have hf : ⌊q⌋ = f := by
    rw [Int.floor_eq_iff]
    exact ⟨h1, by linarith⟩
  unfold roundHalfEven
  rw [hf]
  have : q - (f : ℚ) < 1 / 2 := by linarith
  rw [if_pos this]

theorem roundHalfEven_of_gt (q : ℚ) (f : Int) (h1 : (f : ℚ) + 1 / 2 < q) (h2 : q < f + 1) :
    roundHalfEven q = f + 1 := by
  have hf : ⌊q⌋ = f := by
    rw [Int.floor_eq_iff]
    exact ⟨by linarith, h2⟩
  unfold roundHalfEven
  rw [hf]
  have h3 : ¬ q - (f : ℚ) < 1 / 2 := by linarith
  have h4 : 1 / 2 < q - (f : ℚ) := by linarith
  rw [if_neg h3, if_pos h4]

theorem roundHalfEven_intCast (n : Int) : roundHalfEven (n : ℚ) = n := by
  apply roundHalfEven_of_lt <;> norm_num

theorem roundHalfEven_mono {q q' : ℚ} (h : q ≤ q') : roundHalfEven q ≤ roundHalfEven q' := by
  have hfloor : ⌊q⌋ ≤ ⌊q'⌋ := Int.floor_mono h
  rcases lt_or_eq_of_le hfloor with hlt | heq
  · calc roundHalfEven q ≤ ⌊q⌋ + 1 := roundHalfEven_le_floor_succ q
      _ ≤ ⌊q'⌋ := by omega
      _ ≤ roundHalfEven q' := roundHalfEven_ge_floor q'
  · unfold roundHalfEven
    rw [← heq]
    split_ifs with h1 h2 h3 h4 h5 h6 h7 h8 <;> first | omega | (exfalso; linarith)

theorem ulp_pos (m : ℚ) : 0 < ulp m := by
  unfold ulp
  positivity

theorem roundMagnitude_nonneg {m : ℚ} (hm : 0 ≤ m) : 0 ≤ roundMagnitude m := by
  unfold roundMagnitude
  have h0 : roundHalfEven 0 ≤ roundHalfEven (m / ulp m) :=
    roundHalfEven_mono (div_nonneg hm (ulp_pos m).le)
  have h0' : roundHalfEven 0 = 0 := by
    have := roundHalfEven_intCast 0
    simpa using this
  rw [h0'] at h0
  have : (0 : ℚ) ≤ (roundHalfEven (m / ulp m) : ℚ) := by exact_mod_cast h0
  exact mul_nonneg this (ulp_pos m).le

theorem roundMagnitude_zero : roundMagnitude 0 = 0 := by
  unfold roundMagnitude
  have h0 : roundHalfEven 0 = 0 := by
    have := roundHalfEven_intCast 0
    simpa using this
  simp [h0]

theorem ulp_eq (m : ℚ) : ulp m = (2 : ℚ) ^ (max (Int.log 2 m) (-1022) - 52) := rfl

theorem two_pow_mul_zpow (k : Nat) (a b : Int) (h : (k : Int) + a = b) :
    (((2 : Int) ^ k : Int) : ℚ) * (2 : ℚ) ^ a = (2 : ℚ) ^ b := by
  rw [Int.cast_pow, Int.cast_ofNat, ← zpow_natCast, ← zpow_add₀ (by norm_num), h]

theorem roundMagnitude_mono_pos {x y : ℚ} (hx : 0 < x) (h : x ≤ y) :
    roundMagnitude x ≤ roundMagnitude y := by
  have hy : 0 < y := lt_of_lt_of_le hx h
  have hlog : Int.log 2 x ≤ Int.log 2 y := Int.log_mono_right hx h
  have hE : max (Int.log 2 x) (-1022) ≤ max (Int.log 2 y) (-1022) := max_le_max hlog le_rfl
  rcases eq_or_lt_of_le hE with heq | hlt
  · have hu : ulp x = ulp y := by rw [ulp_eq, ulp_eq, heq]
    unfold roundMagnitude
    rw [hu]
    have hdiv : x / ulp y ≤ y / ulp y := div_le_div_of_nonneg_right h (ulp_pos y).le
    have := roundHalfEven_mono hdiv
    have hc : (roundHalfEven (x / ulp y) : ℚ) ≤ (roundHalfEven (y / ulp y) : ℚ) := by
      exact_mod_cast this
    exact mul_le_mul_of_nonneg_right hc (ulp_pos y).le
  · set Ex := max (Int.log 2 x) (-1022) with hEx
    set Ey := max (Int.log 2 y) (-1022) with hEy
    have hEylog : Ey = Int.log 2 y := by
      have : -1022 < Ey := lt_of_le_of_lt (le_max_right _ _) hlt
      rcases max_cases (Int.log 2 y) (-1022) with ⟨h1, _⟩ | ⟨h1, _⟩
      · exact h1
      · omega
    have hylow : (2 : ℚ) ^ Ey ≤ y := by
      rw [hEylog]
      exact_mod_cast Int.zpow_log_le_self (b := 2) (by norm_num) hy
    have hxhigh : x < (2 : ℚ) ^ Ey := by
      have h1 : x < (2 : ℚ) ^ (Int.log 2 x + 1) := by
        exact_mod_cast Int.lt_zpow_succ_log_self (b := 2) (by norm_num) x
      have h2 : Int.log 2 x + 1 ≤ Ey := by
        have : Int.log 2 x ≤ Ex := le_max_left _ _
        omega
      exact lt_of_lt_of_le h1 (zpow_le_zpow_right₀ (by norm_num) h2)
    have hmid_y : (2 : ℚ) ^ Ey ≤ roundMagnitude y := by
      unfold roundMagnitude
      rw [ulp_eq, ← hEy]
      have hq : (((2 : Int) ^ 52 : Int) : ℚ) ≤ y / (2 : ℚ) ^ (Ey - 52) := by
        rw [le_div_iff₀ (by positivity)]
        have : (((2 : Int) ^ 52 : Int) : ℚ) * (2 : ℚ) ^ (Ey - 52) = (2 : ℚ) ^ Ey :=
          two_pow_mul_zpow 52 (Ey - 52) Ey (by omega)
        rw [this]
        exact hylow
      have := roundHalfEven_mono hq
      rw [roundHalfEven_intCast] at this
      have hc : (((2 : Int) ^ 52 : Int) : ℚ) ≤ (roundHalfEven (y / (2 : ℚ) ^ (Ey - 52)) : ℚ) := by
        exact_mod_cast this
      calc (2 : ℚ) ^ Ey = (((2 : Int) ^ 52 : Int) : ℚ) * (2 : ℚ) ^ (Ey - 52) :=
            (two_pow_mul_zpow 52 (Ey - 52) Ey (by omega)).symm
        _ ≤ _ := mul_le_mul_of_nonneg_right hc (by positivity)
    have hmid_x : roundMagnitude x ≤ (2 : ℚ) ^ Ey := by
      unfold roundMagnitude
      rw [ulp_eq, ← hEx]
      obtain ⟨k, hk⟩ : ∃ k : Nat, (k : Int) = Ey - Ex + 52 := ⟨(Ey - Ex + 52).toNat, by omega⟩
      have hpow : (((2 : Int) ^ k : Int) : ℚ) * (2 : ℚ) ^ (Ex - 52) = (2 : ℚ) ^ Ey :=
        two_pow_mul_zpow k (Ex - 52) Ey (by omega)
      have hq : x / (2 : ℚ) ^ (Ex - 52) ≤ (((2 : Int) ^ k : Int) : ℚ) := by
        rw [div_le_iff₀ (by positivity), hpow]
        exact hxhigh.le
      have := roundHalfEven_mono hq
      rw [roundHalfEven_intCast] at this
      have hc : (roundHalfEven (x / (2 : ℚ) ^ (Ex - 52)) : ℚ) ≤ (((2 : Int) ^ k : Int) : ℚ) := by
        exact_mod_cast this
      calc _ ≤ (((2 : Int) ^ k : Int) : ℚ) * (2 : ℚ) ^ (Ex - 52) :=
            mul_le_mul_of_nonneg_right hc (by positivity)
        _ = _ := hpow
    exact le_trans hmid_x hmid_y

theorem roundMagnitude_mono {x y : ℚ} (hx : 0 ≤ x) (h : x ≤ y) :
    roundMagnitude x ≤ roundMagnitude y := by
  rcases eq_or_lt_of_le hx with h0 | hpos
  · rw [← h0, roundMagnitude_zero]
    exact roundMagnitude_nonneg (le_trans hx h)
  · exact roundMagnitude_mono_pos hpos h

/-- Rounding to double precision is monotone. -/
theorem roundDouble_mono {x y : ℚ} (h : x ≤ y) : roundDouble x ≤ roundDouble y := by
  unfold roundDouble
  by_cases hx : 0 ≤ x
  · have hy : 0 ≤ y := le_trans hx h
    rw [if_pos hx, if_pos hy]
    exact roundMagnitude_mono hx h
  · rw [if_neg hx]
    by_cases hy : 0 ≤ y
    · rw [if_pos hy]
      have h1 : 0 ≤ roundMagnitude (-x) := roundMagnitude_nonneg (by linarith)
      have h2 : 0 ≤ roundMagnitude y := roundMagnitude_nonneg hy
      linarith
    · rw [if_neg hy]
      have := roundMagnitude_mono (x := -y) (y := -x) (by linarith) (by linarith)
      linarith

theorem doubleAdd_mono_right (c : ℚ) {a b : ℚ} (h : a ≤ b) : doubleAdd c a ≤ doubleAdd c b :=
  roundDouble_mono (by linarith)

/-- The rounding of a value with known binade and known rounded significand. -/
theorem roundDouble_of_binade (x : ℚ) (e n : Int) (h1 : (2 : ℚ) ^ e ≤ x)
    (h2 : x < (2 : ℚ) ^ (e + 1)) (he : -1022 ≤ e)
    (hn : roundHalfEven (x / (2 : ℚ) ^ (e - 52)) = n) :
    roundDouble x = (n : ℚ) * (2 : ℚ) ^ (e - 52) := by
  have hx : 0 < x := lt_of_lt_of_le (by positivity) h1
  have hlog : Int.log 2 x = e := by
    apply le_antisymm
    · have := (Int.lt_zpow_iff_log_lt (b := 2) (by norm_num) hx (x := e + 1)).1
        (by exact_mod_cast h2)
      omega
    · exact (Int.zpow_le_iff_le_log (b := 2) (by norm_num) hx).1 (by exact_mod_cast h1)
  unfold roundDouble roundMagnitude
  rw [if_pos hx.le, ulp_eq, hlog, max_eq_left he, hn]

theorem roundDouble_one_sub_three_div : roundDouble (1 - 3 / 2 ^ 55) = 1 - 1 / 2 ^ 53 := by
  rw [roundDouble_of_binade (1 - 3 / 2 ^ 55) (-1) (2 ^ 53 - 1) (by norm_num) (by norm_num)
    (by norm_num) (by apply roundHalfEven_of_lt <;> norm_num)]
  norm_num

theorem roundDouble_twelve_sub : roundDouble (12 - 1 / 2 ^ 51) = 12 := by
  rw [roundDouble_of_binade (12 - 1 / 2 ^ 51) 3 (12 * 2 ^ 49) (by norm_num) (by norm_num)
    (by norm_num) (by
      have := roundHalfEven_of_gt (((12 : ℚ) - 1 / 2 ^ 51) / (2 : ℚ) ^ ((3 : Int) - 52))
        (12 * 2 ^ 49 - 1) (by norm_num) (by norm_num)
      rw [this]; norm_num)]
  norm_num

/-- An exact integer within the range of `int` is stored as it is. -/
theorem wrapInt32_of_range (n : Int) (hlo : -2147483648 ≤ n) (hhi : n ≤ 2147483647) :
    wrapInt32 n = n := by
  unfold wrapInt32
  omega


theorem addWaypoints_eq (a : Agent) (ws : List WaypointPtr) :
    addWaypoints a ws = { a with waypoints := a.waypoints ++ ws } := by
  induction ws generalizing a with
  | nil => simp [addWaypoints]
  | cons w ws ih => simp [addWaypoints, ih, Agent.addWaypoint]

/-- The agent of one iteration, field by field. -/
theorem initAgent_eq (c : AgentCluster) (i : Nat) (agentId : Int) (rx ry : ℚ) :
    initAgent c i agentId rx ry =
      { id := (i : Int), name := "person_" ++ to_string agentId, x := rx, y := ry,
        initialPosX := rx, initialPosY := ry, type := c.agentType, vmax := c.vmax,
        vmaxDefault := c.vmax, chattingProbability := c.chattingProbability,
        tellStoryProbability := c.tellStoryProbability,
        groupTalkingProbability := c.groupTalkingProbability,
        talkingAndWalkingProbability := c.talkingAndWalkingProbability,
        stateTalkingBaseTime := c.stateTalkingBaseTime,
        stateTellStoryBaseTime := c.stateTellStoryBaseTime,
        stateGroupTalkingBaseTime := c.stateGroupTalkingBaseTime,
        stateTalkingAndWalkingBaseTime := c.stateTalkingAndWalkingBaseTime,
        maxTalkingDistance := c.maxTalkingDistance, waypointMode := c.waypoint_mode,
        forceFactorDesired := c.forceFactorDesired,
        forceFactorSocial := c.forceFactorSocial,
        forceFactorObstacle := c.forceFactorObstacle, waypoints := c.waypoints } := by
  simp [initAgent, addWaypoints_eq, Agent.new, Agent.setPosition, Agent.setType,
    Agent.setVmax, Agent.setForceFactorDesired, Agent.setForceFactorSocial,
    Agent.setForceFactorObstacle]

/-- A zero footprint dimension leaves the coordinate and the generator alone. -/
theorem jitter_zero {G : Type} (uniform : ℚ → ℚ → G → ℚ × G) (coord : ℚ) (g : G) :
    jitter uniform 0 coord g = (coord, g) := by
  simp [jitter]

/-- A nonzero footprint dimension adds one draw to the coordinate. -/
theorem jitter_of_ne {G : Type} (uniform : ℚ → ℚ → G → ℚ × G) (size coord : ℚ) (g : G)
    (h : size ≠ 0) :
    jitter uniform size coord g =
      (doubleAdd coord (uniform (-size / 2) (size / 2) g).1,
        (uniform (-size / 2) (size / 2) g).2) := by
  simp [jitter, h]

theorem dissolveBody_some {G : Type} (uniform : ℚ → ℚ → G → ℚ × G) (c : AgentCluster)
    (i : Nat) (agents : List Agent) (w : World G) (agentId : Int)
    (h : c.agentIds[i]? = some agentId) :
    dissolveBody uniform c i agents w =
      some (agents ++ [spawnAgent uniform c i agentId w.rng],
        { rng := rngAfter uniform c w.rng,
          scene := w.scene ++ [spawnAgent uniform c i agentId w.rng] }) := by
  simp [dissolveBody, h, spawnAgent, rngAfter, World.addAgent]

/-- The loop of `dissolve` runs to completion when every index it reads is in
range; the agents it appends to the result list are the agents it appends to
the scene, there are as many as iterations, and each has every property that
all agents spawned at its index have. -/
theorem dissolveLoop_spec {G : Type} (uniform : ℚ → ℚ → G → ℚ × G) (c : AgentCluster)
    (P : Nat → Agent → Prop)
    (hP : ∀ i agentId g, c.agentIds[i]? = some agentId →
      P i (spawnAgent uniform c i agentId g)) :
    ∀ (n i : Nat) (agents : List Agent) (w : World G), i + n ≤ c.agentIds.length →
      ∃ (fresh : List Agent) (w' : World G),
        dissolveLoop uniform c n i agents w = some (agents ++ fresh, w') ∧
        w'.scene = w.scene ++ fresh ∧ fresh.length = n ∧
        ∀ (k : Nat) (hk : k < fresh.length), P (i + k) (fresh.get ⟨k, hk⟩) := by
  intro n
  induction n with
  | zero =>
    intro i agents w _
    exact ⟨[], w, by simp [dissolveLoop], by simp, rfl, fun k hk => absurd hk (by simp)⟩
  | succ n ih =>
    intro i agents w hlen
    have hi : i < c.agentIds.length := by omega
    have hget : c.agentIds[i]? = some (c.agentIds.get ⟨i, hi⟩) := by
      simp [List.getElem?_eq_getElem hi]
    obtain ⟨fresh, w', hloop, hscene, hlength, hall⟩ :=
      ih (i + 1) (agents ++ [spawnAgent uniform c i (c.agentIds.get ⟨i, hi⟩) w.rng])
        { rng := rngAfter uniform c w.rng,
          scene := w.scene ++ [spawnAgent uniform c i (c.agentIds.get ⟨i, hi⟩) w.rng] }
        (by omega)
    refine ⟨spawnAgent uniform c i (c.agentIds.get ⟨i, hi⟩) w.rng :: fresh, w', ?_, ?_, ?_, ?_⟩
    · simp only [dissolveLoop, dissolveBody_some uniform c i agents w _ hget]
      rw [hloop]
      simp
    · rw [hscene]
      simp
    · simp [hlength]
    · intro k hk
      cases k with
      | zero => exact hP i _ w.rng hget
      | succ k =>
        have hk' : k < fresh.length := by simpa using hk
        have := hall k hk'
        have harith : i + 1 + k = i + (k + 1) := by omega
        rw [harith] at this
        simpa using this

/-- With a footprint of (0, 0) the loop of `dissolve` leaves the generator state
as it found it. -/
theorem dissolveLoop_rng_of_zero_footprint {G : Type} (uniform : ℚ → ℚ → G → ℚ × G)
    (c : AgentCluster) (hw : c.distribution.width = 0) (hh : c.distribution.height = 0) :
    ∀ (n i : Nat) (agents : List Agent) (w : World G) (r : List Agent × World G),
      dissolveLoop uniform c n i agents w = some r → r.2.rng = w.rng := by
  intro n
  induction n with
  | zero =>
    intro i agents w r h
    simp [dissolveLoop] at h
    rw [← h]
  | succ n ih =>
    intro i agents w r h
    cases hget : c.agentIds[i]? with
    | none => simp [dissolveLoop, dissolveBody, hget] at h
    | some agentId =>
      simp only [dissolveLoop, dissolveBody_some uniform c i agents w agentId hget] at h
      have := ih _ _ _ r h
      rw [this]
      simp [rngAfter, jitter, hw, hh]

/-- The constructor's loop appends the stored sums `staticid + i`, ...,
`staticid + i + n - 1`. -/
theorem pushIds_eq (staticid : Int) (n i : Nat) (agentIds : List Int) :
    pushIds staticid n i agentIds =
      agentIds ++ (List.range' i n).map (fun (k : Nat) => wrapInt32 (staticid + (k : Int))) := by
  induction n generalizing i agentIds with
  | zero => simp [pushIds]
  | succ n ih => simp [pushIds, ih, List.range'_succ]

/-- Without overflow the constructor's loop, run from an empty list, yields the
contiguous run that starts at `staticid`. -/
theorem pushIds_run (staticid : Int) (n : Nat) (hlo : -2147483648 ≤ staticid)
    (hhi : 0 < n → staticid + (n : Int) - 1 ≤ 2147483647) :
    pushIds staticid n 0 [] =
      (List.range n).map (fun (k : Nat) => staticid + (k : Int)) := by
  rw [pushIds_eq, List.nil_append, List.range_eq_range']
  apply List.map_congr_left
  intro k hk
  have hk' : k < n := by
    have := List.mem_range'_1.1 hk
    omega
  have hhi' := hhi (by omega)
  exact wrapInt32_of_range _ (by omega) (by omega)

/-- The list `removeAll` keeps has no entry equal to the removed value. -/
theorem not_mem_removeAll (l : List WaypointPtr) (v : WaypointPtr) :
    v ∉ (removeAll l v).1 := by
  simp [removeAll, List.mem_filter]

/-- Removing a value that does not occur removes nothing. -/
theorem removeAll_of_not_mem (l : List WaypointPtr) (v : WaypointPtr) (h : v ∉ l) :
    removeAll l v = (l, 0) := by
  have hfilter : l.filter (fun x => x != v) = l := by
    rw [List.filter_eq_self]
    intro a ha
    have : a ≠ v := fun hav => h (hav ▸ ha)
    simpa using this
  simp [removeAll, hfilter, List.count_eq_zero_of_not_mem h]

/-- When `agentIds` has `count` entries, `dissolve` returns; the agents it
returns are the agents it appends to the scene, there are `count` of them, and
the one at index `i` has every property that all agents spawned at index `i`
have. -/
theorem dissolve_spec {G : Type} (uniform : ℚ → ℚ → G → ℚ × G) (c : AgentCluster)
    (P : Nat → Agent → Prop)
    (hP : ∀ i agentId g, c.agentIds[i]? = some agentId →
      P i (spawnAgent uniform c i agentId g))
    (w : World G) (hsize : (c.agentIds.length : Int) = c.count) :
    ∃ (agents : List Agent) (w' : World G),
      dissolve uniform c w = some (agents, w') ∧ w'.scene = w.scene ++ agents ∧
      (agents.length : Int) = c.count ∧
      ∀ (i : Nat) (hi : i < agents.length), P i agents[i] := by
  have hn : c.count.toNat = c.agentIds.length := by omega
  obtain ⟨fresh, w', hloop, hscene, hlength, hall⟩ :=
    dissolveLoop_spec uniform c P hP c.count.toNat 0 [] w (by omega)
  refine ⟨fresh, w', ?_, hscene, by omega, ?_⟩
  · simpa [dissolve] using hloop
  · intro i hi
    simpa using hall i hi

/-! ## The spawn operation -/

/-- C1: for every cluster whose `agentIds` has `count` entries, `dissolve` returns
a list of exactly `count` agents, and the agent at position `i` of the list was
constructed with local index `i`. -/
theorem dissolve_returns_count_agents_in_spawn_order {G : Type}
    (uniform : ℚ → ℚ → G → ℚ × G) (c : AgentCluster) (w : World G)
    (hsize : (c.agentIds.length : Int) = c.count) :
    ∃ (agents : List Agent) (w' : World G),
      dissolve uniform c w = some (agents, w') ∧ (agents.length : Int) = c.count ∧
      ∀ (i : Nat) (hi : i < agents.length), agents[i].id = (i : Int) := by
  obtain ⟨agents, w', hd, _, hlen, hall⟩ :=
    dissolve_spec uniform c (fun i a => a.id = (i : Int))
      (fun i agentId g _ => by simp [spawnAgent, initAgent_eq]) w hsize
  exact ⟨agents, w', hd, hlen, hall⟩

theorem dissolve_returns_count_agents_in_spawn_order_witness :
    (exampleCluster.agentIds.length : Int) = exampleCluster.count ∧
    ∃ (agents : List Agent) (w' : World Nat),
      dissolve midpointSampler exampleCluster exampleWorld = some (agents, w') ∧
      (agents.length : Int) = exampleCluster.count ∧
      ∀ (i : Nat) (hi : i < agents.length), agents[i].id = (i : Int) :=
  ⟨by decide,
    dissolve_returns_count_agents_in_spawn_order midpointSampler exampleCluster exampleWorld
      (by decide)⟩

/-- C2: for every cluster whose `agentIds` has `count` entries, `dissolve` appends
to the scene registry exactly the agents it returns, fully initialised, once
each and in the order of the returned list; so `addAgent` runs `count` times. -/
theorem dissolve_registers_returned_agents_in_order {G : Type}
    (uniform : ℚ → ℚ → G → ℚ × G) (c : AgentCluster) (w : World G)
    (hsize : (c.agentIds.length : Int) = c.count) :
    ∃ (agents : List Agent) (w' : World G),
      dissolve uniform c w = some (agents, w') ∧ w'.scene = w.scene ++ agents ∧
      (w'.scene.length : Int) = (w.scene.length : Int) + c.count := by
  obtain ⟨agents, w', hd, hscene, hlen, _⟩ :=
    dissolve_spec uniform c (fun _ _ => True) (fun _ _ _ _ => trivial) w hsize
  refine ⟨agents, w', hd, hscene, ?_⟩
  rw [hscene, List.length_append]
  omega

theorem dissolve_registers_returned_agents_in_order_witness :
    (exampleCluster.agentIds.length : Int) = exampleCluster.count ∧
    ∃ (agents : List Agent) (w' : World Nat),
      dissolve midpointSampler exampleCluster exampleWorld = some (agents, w') ∧
      w'.scene = exampleWorld.scene ++ agents ∧
      (w'.scene.length : Int) = (exampleWorld.scene.length : Int) + exampleCluster.count :=
  ⟨by decide,
    dissolve_registers_returned_agents_in_order midpointSampler exampleCluster exampleWorld
      (by decide)⟩

/-- C3: for every cluster with footprint (0, 0) whose `agentIds` has `count`
entries, every agent returned by `dissolve` has its live position exactly at the
cluster centroid, and the generator state after the call is the state before. -/
theorem dissolve_zero_footprint_at_centroid_no_draw {G : Type}
    (uniform : ℚ → ℚ → G → ℚ × G) (c : AgentCluster) (w : World G)
    (hw : c.distribution.width = 0) (hh : c.distribution.height = 0)
    (hsize : (c.agentIds.length : Int) = c.count) :
    ∃ (agents : List Agent) (w' : World G),
      dissolve uniform c w = some (agents, w') ∧ w'.rng = w.rng ∧
      ∀ (i : Nat) (hi : i < agents.length),
        agents[i].x = c.position.x ∧ agents[i].y = c.position.y := by
  obtain ⟨agents, w', hd, _, _, hall⟩ :=
    dissolve_spec uniform c (fun _ a => a.x = c.position.x ∧ a.y = c.position.y)
      (fun i agentId g _ => by simp [spawnAgent, initAgent_eq, jitter, hw, hh]) w hsize
  exact ⟨agents, w', hd,
    dissolveLoop_rng_of_zero_footprint uniform c hw hh _ _ _ _ _ hd, hall⟩

theorem dissolve_zero_footprint_at_centroid_no_draw_witness :
    exampleCluster.distribution.width = 0 ∧ exampleCluster.distribution.height = 0 ∧
    (exampleCluster.agentIds.length : Int) = exampleCluster.count ∧
    ∃ (agents : List Agent) (w' : World Nat),
      dissolve midpointSampler exampleCluster exampleWorld = some (agents, w') ∧
      w'.rng = exampleWorld.rng ∧
      ∀ (i : Nat) (hi : i < agents.length),
        agents[i].x = exampleCluster.position.x ∧ agents[i].y = exampleCluster.position.y :=
  ⟨by decide, by decide, by decide,
    dissolve_zero_footprint_at_centroid_no_draw midpointSampler exampleCluster exampleWorld
      (by decide) (by decide) (by decide)⟩

/-- C4, as stated, fails: the one-agent cluster at (1, 1) with footprint
(3 * 2 ^ -54, 0) and a sampler that returns the lower end of its interval meet
every condition of the claim; the draw is minus half the width, the double sum
of 1 and the draw is 1 - 2 ^ -53, and that x lies below 1 minus half the
width. -/
theorem dissolve_width_only_footprint_rounding_counterexample :
    (0 : ℚ) ≤ 3 / 2 ^ 54 ∧ tinyCluster.distribution.width = 3 / 2 ^ 54 ∧
    tinyCluster.distribution.height = 0 ∧ tinyCluster.position.x = 1 ∧
    (tinyCluster.agentIds.length : Int) = tinyCluster.count ∧
    (∀ (a b : ℚ) (g : Nat), a ≤ b →
      a ≤ (lowerSampler a b g).1 ∧ (lowerSampler a b g).1 ≤ b) ∧
    ∃ (agents : List Agent) (w' : World Nat),
      dissolve lowerSampler tinyCluster exampleWorld = some (agents, w') ∧
      (agents.length : Int) = 1 ∧
      ∀ (i : Nat) (hi : i < agents.length),
        agents[i].x = 1 - 1 / 2 ^ 53 ∧
        agents[i].x < tinyCluster.position.x - (3 / 2 ^ 54) / 2 := by
  have hw : tinyCluster.distribution.width = 3 / 2 ^ 54 := rfl
  have hx : tinyCluster.position.x = 1 := rfl
  have hsize : (tinyCluster.agentIds.length : Int) = tinyCluster.count := by decide
  refine ⟨by norm_num, hw, rfl, hx, hsize, ?_, ?_⟩
  · intro a b g hab
    exact ⟨le_refl a, hab⟩
  · obtain ⟨agents, w', hd, _, hlen, hall⟩ :=
      dissolve_spec lowerSampler tinyCluster
        (fun _ a => a.x = 1 - 1 / 2 ^ 53 ∧ a.x < tinyCluster.position.x - (3 / 2 ^ 54) / 2)
        (fun i agentId g _ => by
          have hval : (spawnAgent lowerSampler tinyCluster i agentId g).x =
              1 - 1 / 2 ^ 53 := by
            simp only [spawnAgent, initAgent_eq]
            rw [hw, hx, jitter_of_ne lowerSampler _ _ _ (by norm_num)]
            simp only [lowerSampler, doubleAdd]
            have harg : (1 + -(3 / 2 ^ 54) / 2 : ℚ) = 1 - 3 / 2 ^ 55 := by norm_num
            rw [harg, roundDouble_one_sub_three_div]
          refine ⟨hval, ?_⟩
          rw [hval, hx]
          norm_num) exampleWorld hsize
    exact ⟨agents, w', hd, hlen, hall⟩

/-- C4, amended: for every cluster with footprint (W, 0), W at least 0, whose
`agentIds` has `count` entries, and every uniform sampler whose draws over an
interval lie in that interval, every agent returned by `dissolve` has y equal
to the centroid y; its x is the centroid x when W is 0, and otherwise lies
between the double sum of the centroid x and -W / 2 and the double sum of the
centroid x and W / 2. -/
theorem dissolve_width_only_footprint_bounds {G : Type}
    (uniform : ℚ → ℚ → G → ℚ × G) (c : AgentCluster) (w : World G) (W : ℚ)
    (hW : 0 ≤ W) (hw : c.distribution.width = W) (hh : c.distribution.height = 0)
    (hsize : (c.agentIds.length : Int) = c.count)
    (hU : ∀ (a b : ℚ) (g : G), a ≤ b → a ≤ (uniform a b g).1 ∧ (uniform a b g).1 ≤ b) :
    ∃ (agents : List Agent) (w' : World G),
      dissolve uniform c w = some (agents, w') ∧
      ∀ (i : Nat) (hi : i < agents.length),
        agents[i].y = c.position.y ∧
        (W = 0 → agents[i].x = c.position.x) ∧
        (W ≠ 0 → doubleAdd c.position.x (-W / 2) ≤ agents[i].x ∧
          agents[i].x ≤ doubleAdd c.position.x (W / 2)) := by
  obtain ⟨agents, w', hd, _, _, hall⟩ :=
    dissolve_spec uniform c
      (fun _ a => a.y = c.position.y ∧ (W = 0 → a.x = c.position.x) ∧
        (W ≠ 0 → doubleAdd c.position.x (-W / 2) ≤ a.x ∧
          a.x ≤ doubleAdd c.position.x (W / 2)))
      (fun i agentId g _ => by
        have hb := hU (-W / 2) (W / 2) g (by linarith)
        refine ⟨by simp [spawnAgent, initAgent_eq, hh, jitter_zero], ?_, ?_⟩
        · intro hz
          subst hz
          simp [spawnAgent, initAgent_eq, hw, jitter_zero]
        · intro hz
          have hx : (jitter uniform c.distribution.width c.position.x g).1 =
              doubleAdd c.position.x (uniform (-W / 2) (W / 2) g).1 := by
            rw [hw, jitter_of_ne uniform W c.position.x g hz]
          simp only [spawnAgent, initAgent_eq, hx]
          exact ⟨doubleAdd_mono_right _ hb.1, doubleAdd_mono_right _ hb.2⟩) w hsize
  exact ⟨agents, w', hd, hall⟩

theorem dissolve_width_only_footprint_bounds_witness :
    (0 : ℚ) ≤ 4 ∧ wideCluster.distribution.width = 4 ∧ wideCluster.distribution.height = 0 ∧
    (wideCluster.agentIds.length : Int) = wideCluster.count ∧
    (∀ (a b : ℚ) (g : Nat), a ≤ b →
      a ≤ (alternatingSampler a b g).1 ∧ (alternatingSampler a b g).1 ≤ b) ∧
    ∃ (agents : List Agent) (w' : World Nat),
      dissolve alternatingSampler wideCluster exampleWorld = some (agents, w') ∧
      ∀ (i : Nat) (hi : i < agents.length),
        agents[i].y = wideCluster.position.y ∧
        doubleAdd wideCluster.position.x (-4 / 2) ≤ agents[i].x ∧
        agents[i].x ≤ doubleAdd wideCluster.position.x (4 / 2) := by
  have hU : ∀ (a b : ℚ) (g : Nat), a ≤ b →
      a ≤ (alternatingSampler a b g).1 ∧ (alternatingSampler a b g).1 ≤ b := by
    intro a b g hab
    unfold alternatingSampler
    by_cases hg : g % 2 = 0 <;> simp [hg, hab]
  refine ⟨by norm_num, by decide, by decide, by decide, hU, ?_⟩
  obtain ⟨agents, w', hd, hall⟩ :=
    dissolve_width_only_footprint_bounds alternatingSampler wideCluster exampleWorld 4
      (by norm_num) (by decide) (by decide) (by decide) hU
  exact ⟨agents, w', hd, fun i hi => ⟨(hall i hi).1, (hall i hi).2.2 (by norm_num)⟩⟩

/-- C5: for every cluster whose `agentIds` has `count` entries, the agent at
position `i` of the list returned by `dissolve` is named "person_" followed by
the decimal rendering of `agentIds[i]`. -/
theorem dissolve_names_agents_after_agentIds {G : Type}
    (uniform : ℚ → ℚ → G → ℚ × G) (c : AgentCluster) (w : World G)
    (hsize : (c.agentIds.length : Int) = c.count) :
    ∃ (agents : List Agent) (w' : World G),
      dissolve uniform c w = some (agents, w') ∧
      ∀ (i : Nat) (hi : i < agents.length),
        c.agentIds[i]?.map (fun agentId => "person_" ++ to_string agentId) =
          some agents[i].name := by
  obtain ⟨agents, w', hd, _, _, hall⟩ :=
    dissolve_spec uniform c
      (fun i a => c.agentIds[i]?.map (fun agentId => "person_" ++ to_string agentId) =
        some a.name)
      (fun i agentId g hget => by simp [spawnAgent, initAgent_eq, hget]) w hsize
  exact ⟨agents, w', hd, hall⟩

theorem dissolve_names_agents_after_agentIds_witness :
    (exampleCluster.agentIds.length : Int) = exampleCluster.count ∧
    exampleCluster.agentIds = [101, 102, 103] ∧
    (dissolve midpointSampler exampleCluster exampleWorld).map
      (fun r => r.1.map Agent.name) = some ["person_101", "person_102", "person_103"] ∧
    ∃ (agents : List Agent) (w' : World Nat),
      dissolve midpointSampler exampleCluster exampleWorld = some (agents, w') ∧
      ∀ (i : Nat) (hi : i < agents.length),
        exampleCluster.agentIds[i]?.map (fun agentId => "person_" ++ to_string agentId) =
          some agents[i].name :=
  ⟨by decide, by decide, by decide,
    dissolve_names_agents_after_agentIds midpointSampler exampleCluster exampleWorld
      (by decide)⟩

/-- C6: for every cluster whose `agentIds` has `count` entries, every agent
returned by `dissolve` carries the cluster's agent type, vmax, default vmax
(equal to vmax), three force factors, four probabilities, maximal talking
distance, waypoint mode and four state-machine base times; so vmax is the same
for all agents of the batch. -/
theorem dissolve_copies_cluster_scalars {G : Type}
    (uniform : ℚ → ℚ → G → ℚ × G) (c : AgentCluster) (w : World G)
    (hsize : (c.agentIds.length : Int) = c.count) :
    ∃ (agents : List Agent) (w' : World G),
      dissolve uniform c w = some (agents, w') ∧
      ∀ (i : Nat) (hi : i < agents.length),
        agents[i].type = c.agentType ∧ agents[i].vmax = c.vmax ∧
        agents[i].vmaxDefault = c.vmax ∧
        agents[i].forceFactorDesired = c.forceFactorDesired ∧
        agents[i].forceFactorSocial = c.forceFactorSocial ∧
        agents[i].forceFactorObstacle = c.forceFactorObstacle ∧
        agents[i].chattingProbability = c.chattingProbability ∧
        agents[i].tellStoryProbability = c.tellStoryProbability ∧
        agents[i].groupTalkingProbability = c.groupTalkingProbability ∧
        agents[i].talkingAndWalkingProbability = c.talkingAndWalkingProbability ∧
        agents[i].maxTalkingDistance = c.maxTalkingDistance ∧
        agents[i].waypointMode = c.waypoint_mode ∧
        agents[i].stateTalkingBaseTime = c.stateTalkingBaseTime ∧
        agents[i].stateTellStoryBaseTime = c.stateTellStoryBaseTime ∧
        agents[i].stateGroupTalkingBaseTime = c.stateGroupTalkingBaseTime ∧
        agents[i].stateTalkingAndWalkingBaseTime = c.stateTalkingAndWalkingBaseTime ∧
        ∀ (j : Nat) (hj : j < agents.length), agents[i].vmax = agents[j].vmax := by
  obtain ⟨agents, w', hd, _, _, hall⟩ :=
    dissolve_spec uniform c
      (fun _ a => a.type = c.agentType ∧ a.vmax = c.vmax ∧ a.vmaxDefault = c.vmax ∧
        a.forceFactorDesired = c.forceFactorDesired ∧
        a.forceFactorSocial = c.forceFactorSocial ∧
        a.forceFactorObstacle = c.forceFactorObstacle ∧
        a.chattingProbability = c.chattingProbability ∧
        a.tellStoryProbability = c.tellStoryProbability ∧
        a.groupTalkingProbability = c.groupTalkingProbability ∧
        a.talkingAndWalkingProbability = c.talkingAndWalkingProbability ∧
        a.maxTalkingDistance = c.maxTalkingDistance ∧
        a.waypointMode = c.waypoint_mode ∧
        a.stateTalkingBaseTime = c.stateTalkingBaseTime ∧
        a.stateTellStoryBaseTime = c.stateTellStoryBaseTime ∧
        a.stateGroupTalkingBaseTime = c.stateGroupTalkingBaseTime ∧
        a.stateTalkingAndWalkingBaseTime = c.stateTalkingAndWalkingBaseTime)
      (fun i agentId g _ => by simp [spawnAgent, initAgent_eq]) w hsize
  refine ⟨agents, w', hd, fun i hi => ?_⟩
  obtain ⟨h1, h2, h3, h4, h5, h6, h7, h8, h9, h10, h11, h12, h13, h14, h15, h16⟩ := hall i hi
  refine ⟨h1, h2, h3, h4, h5, h6, h7, h8, h9, h10, h11, h12, h13, h14, h15, h16, ?_⟩
  intro j hj
  rw [h2, (hall j hj).2.1]

theorem dissolve_copies_cluster_scalars_witness :
    (exampleCluster.agentIds.length : Int) = exampleCluster.count ∧
    ∃ (agents : List Agent) (w' : World Nat),
      dissolve midpointSampler exampleCluster exampleWorld = some (agents, w') ∧
      ∀ (i : Nat) (hi : i < agents.length),
        agents[i].type = exampleCluster.agentType ∧ agents[i].vmax = exampleCluster.vmax ∧
        agents[i].vmaxDefault = exampleCluster.vmax ∧
        agents[i].forceFactorDesired = exampleCluster.forceFactorDesired ∧
        agents[i].forceFactorSocial = exampleCluster.forceFactorSocial ∧
        agents[i].forceFactorObstacle = exampleCluster.forceFactorObstacle ∧
        agents[i].chattingProbability = exampleCluster.chattingProbability ∧
        agents[i].tellStoryProbability = exampleCluster.tellStoryProbability ∧
        agents[i].groupTalkingProbability = exampleCluster.groupTalkingProbability ∧
        agents[i].talkingAndWalkingProbability = exampleCluster.talkingAndWalkingProbability ∧
        agents[i].maxTalkingDistance = exampleCluster.maxTalkingDistance ∧
        agents[i].waypointMode = exampleCluster.waypoint_mode ∧
        agents[i].stateTalkingBaseTime = exampleCluster.stateTalkingBaseTime ∧
        agents[i].stateTellStoryBaseTime = exampleCluster.stateTellStoryBaseTime ∧
        agents[i].stateGroupTalkingBaseTime = exampleCluster.stateGroupTalkingBaseTime ∧
        agents[i].stateTalkingAndWalkingBaseTime =
          exampleCluster.stateTalkingAndWalkingBaseTime ∧
        ∀ (j : Nat) (hj : j < agents.length), agents[i].vmax = agents[j].vmax :=
  ⟨by decide,
    dissolve_copies_cluster_scalars midpointSampler exampleCluster exampleWorld (by decide)⟩

/-- C7: for every cluster whose `agentIds` has `count` entries, every agent
returned by `dissolve` has exactly the cluster's waypoint list: the same
references in the same order, duplicates included. -/
theorem dissolve_hands_over_waypoints {G : Type}
    (uniform : ℚ → ℚ → G → ℚ × G) (c : AgentCluster) (w : World G)
    (hsize : (c.agentIds.length : Int) = c.count) :
    ∃ (agents : List Agent) (w' : World G),
      dissolve uniform c w = some (agents, w') ∧
      ∀ (i : Nat) (hi : i < agents.length), agents[i].waypoints = c.waypoints := by
  obtain ⟨agents, w', hd, _, _, hall⟩ :=
    dissolve_spec uniform c (fun _ a => a.waypoints = c.waypoints)
      (fun i agentId g _ => by simp [spawnAgent, initAgent_eq]) w hsize
  exact ⟨agents, w', hd, hall⟩

theorem dissolve_hands_over_waypoints_witness :
    (exampleCluster.agentIds.length : Int) = exampleCluster.count ∧
    exampleCluster.waypoints = [some 1, some 2] ∧
    ∃ (agents : List Agent) (w' : World Nat),
      dissolve midpointSampler exampleCluster exampleWorld = some (agents, w') ∧
      ∀ (i : Nat) (hi : i < agents.length),
        agents[i].waypoints = exampleCluster.waypoints :=
  ⟨by decide, by decide,
    dissolve_hands_over_waypoints midpointSampler exampleCluster exampleWorld (by decide)⟩

/-! ## Construction -/

/-- C8, as stated, fails: constructed with `countIn = -1` and a two-element list,
the cluster ignores the list, but the synthesized `agentIds` is empty, so its
length is not `countIn`; and constructed with `countIn = 2` and the empty list
while the counter is 2147483647, the cluster holds 2147483647 and -2147483648,
not the run 2147483647, 2147483648. -/
theorem constructor_run_counterexample :
    ((-1 : Int) ≠ (([7, 8] : List Int).length : Int) ∧
      (AgentCluster.new 100 meanSampler 0 0 0 (-1) [7, 8]).1.agentIds = [] ∧
      ¬ (((AgentCluster.new 100 meanSampler 0 0 0 (-1) [7, 8]).1.agentIds.length : Int)
        = -1)) ∧
    ((2 : Int) ≠ (([] : List Int).length : Int) ∧
      (AgentCluster.new 2147483647 meanSampler 0 0 0 2 []).1.agentIds =
        [2147483647, -2147483648] ∧
      (AgentCluster.new 2147483647 meanSampler 0 0 0 2 []).1.agentIds ≠
        (List.range (2 : Int).toNat).map (fun (i : Nat) => (2147483647 : Int) + (i : Int))) := by
  decide

/-- C8, amended: if `countIn` differs from the length of the supplied list, the
list is ignored, `agentIds` has `countIn` entries when `countIn` is at least 0
and none otherwise, and as long as `staticid + countIn - 1` does not exceed
2147483647 it is the contiguous run `staticid`, `staticid + 1`, ...; if
`countIn` equals the length of the supplied list, `agentIds` is the supplied
list. -/
theorem constructor_agentIds {N : Type} (staticid : Int) (normal : ℚ → ℚ → N → ℚ × N)
    (gen : N) (xIn yIn : ℚ) (countIn : Int) (agent_ids : List Int) :
    (countIn ≠ (agent_ids.length : Int) →
      ((AgentCluster.new staticid normal gen xIn yIn countIn agent_ids).1.agentIds.length : Int)
        = max countIn 0 ∧
      (∀ other : List Int, countIn ≠ (other.length : Int) →
        (AgentCluster.new staticid normal gen xIn yIn countIn agent_ids).1.agentIds =
          (AgentCluster.new staticid normal gen xIn yIn countIn other).1.agentIds) ∧
      (-2147483648 ≤ staticid → staticid + countIn - 1 ≤ 2147483647 →
        (AgentCluster.new staticid normal gen xIn yIn countIn agent_ids).1.agentIds =
          (List.range countIn.toNat).map (fun (i : Nat) => staticid + (i : Int)))) ∧
    (countIn = (agent_ids.length : Int) →
      (AgentCluster.new staticid normal gen xIn yIn countIn agent_ids).1.agentIds =
        agent_ids) := by
  constructor
  · intro hne
    have hids : ∀ ids : List Int, countIn ≠ (ids.length : Int) →
        (AgentCluster.new staticid normal gen xIn yIn countIn ids).1.agentIds =
          pushIds staticid countIn.toNat 0 [] := by
      intro ids h
      simp [AgentCluster.new, h]
    refine ⟨?_, ?_, ?_⟩
    · rw [hids agent_ids hne, pushIds_eq]
      simp only [List.nil_append, List.length_map, List.length_range']
      omega
    · intro other hother
      rw [hids agent_ids hne, hids other hother]
    · intro hlo hhi
      rw [hids agent_ids hne]
      exact pushIds_run staticid countIn.toNat hlo (fun hpos => by omega)
  · intro heq
    simp [AgentCluster.new, heq]

theorem constructor_agentIds_witness :
    (5 : Int) ≠ (([1, 2] : List Int).length : Int) ∧
    (-2147483648 : Int) ≤ 7 ∧ (7 : Int) + 5 - 1 ≤ 2147483647 ∧
    ((AgentCluster.new 7 meanSampler 0 10 10 5 [1, 2]).1.agentIds.length : Int) = max 5 0 ∧
    (AgentCluster.new 7 meanSampler 0 10 10 5 [1, 2]).1.agentIds =
      (List.range (5 : Int).toNat).map (fun (i : Nat) => (7 : Int) + (i : Int)) ∧
    (AgentCluster.new 7 meanSampler 0 10 10 5 [1, 2]).1.agentIds = [7, 8, 9, 10, 11] :=
  ⟨by decide, by decide, by decide,
    ((constructor_agentIds 7 meanSampler 0 10 10 5 [1, 2]).1 (by decide)).1,
    ((constructor_agentIds 7 meanSampler 0 10 10 5 [1, 2]).1 (by decide)).2.2
      (by decide) (by decide),
    by decide⟩

/-- C9, as stated, fails: constructed with `countIn = -1` and the empty list, the
cluster has `count = -1`, which is negative and is not the length of `agentIds`. -/
theorem constructor_negative_count_invariant_counterexample :
    ¬ ((AgentCluster.new 0 meanSampler 0 0 0 (-1) []).1.count =
        ((AgentCluster.new 0 meanSampler 0 0 0 (-1) []).1.agentIds.length : Int) ∧
      0 ≤ (AgentCluster.new 0 meanSampler 0 0 0 (-1) []).1.count) := by
  decide

/-- C9, amended: for every `countIn` that is at least 0 and every supplied list,
the freshly constructed cluster has `count` equal to the length of `agentIds`,
and `count` is at least 0. -/
theorem constructor_count_eq_agentIds_size {N : Type} (staticid : Int)
    (normal : ℚ → ℚ → N → ℚ × N) (gen : N) (xIn yIn : ℚ) (countIn : Int)
    (agent_ids : List Int) (hcount : 0 ≤ countIn) :
    (AgentCluster.new staticid normal gen xIn yIn countIn agent_ids).1.count =
      ((AgentCluster.new staticid normal gen xIn yIn countIn agent_ids).1.agentIds.length : Int) ∧
    0 ≤ (AgentCluster.new staticid normal gen xIn yIn countIn agent_ids).1.count := by
  by_cases hne : countIn = (agent_ids.length : Int)
  · simp [AgentCluster.new, hne]
  · have hlen : (AgentCluster.new staticid normal gen xIn yIn countIn agent_ids).1.agentIds.length
        = countIn.toNat := by
      simp [AgentCluster.new, hne, pushIds_eq]
    rw [hlen]
    simp only [AgentCluster.new]
    omega

theorem constructor_count_eq_agentIds_size_witness :
    (0 : Int) ≤ 5 ∧
    (AgentCluster.new 7 meanSampler 0 10 10 5 [1, 2]).1.count =
      ((AgentCluster.new 7 meanSampler 0 10 10 5 [1, 2]).1.agentIds.length : Int) ∧
    0 ≤ (AgentCluster.new 7 meanSampler 0 10 10 5 [1, 2]).1.count :=
  ⟨by decide, constructor_count_eq_agentIds_size 7 meanSampler 0 10 10 5 [1, 2] (by decide)⟩

/-! ## The waypoint list -/

/-- C10: for every cluster and waypoint reference, `addWaypoint` followed by
`removeWaypoint` of the same reference returns true and leaves a waypoint list
without that reference; and `removeWaypoint` of a reference that is not in the
waypoint list returns false and leaves the cluster, its list included, as it
was. -/
theorem addWaypoint_removeWaypoint (c : AgentCluster) (w : WaypointPtr) :
    (((c.addWaypoint w).removeWaypoint w).1 = true ∧
      w ∉ ((c.addWaypoint w).removeWaypoint w).2.waypoints) ∧
    (w ∉ c.waypoints →
      (c.removeWaypoint w).1 = false ∧ (c.removeWaypoint w).2.waypoints = c.waypoints ∧
      (c.removeWaypoint w).2 = c) := by
  constructor
  · have hcount : (0 : Int) < ((removeAll (c.waypoints ++ [w]) w).2) := by
      simp only [removeAll, List.count_append, List.count_singleton_self]
      omega
    constructor
    · simp [AgentCluster.removeWaypoint, AgentCluster.addWaypoint, hcount]
    · have hnot := not_mem_removeAll (c.waypoints ++ [w]) w
      simp only [AgentCluster.removeWaypoint, AgentCluster.addWaypoint, gt_iff_lt, hcount,
        if_true]
      exact hnot
  · intro hmem
    simp [AgentCluster.removeWaypoint, removeAll_of_not_mem c.waypoints w hmem]

theorem addWaypoint_removeWaypoint_witness :
    (some 3 : WaypointPtr) ∉ exampleCluster.waypoints ∧
    (exampleCluster.removeWaypoint (some 3)).1 = false ∧
    (exampleCluster.removeWaypoint (some 3)).2.waypoints = exampleCluster.waypoints ∧
    (exampleCluster.removeWaypoint (some 3)).2 = exampleCluster :=
  ⟨by decide, (addWaypoint_removeWaypoint exampleCluster (some 3)).2 (by decide)⟩

/-- What `removeWaypoint` leaves and returns, in terms of the list before. -/
theorem removeWaypoint_eq (c : AgentCluster) (w : WaypointPtr) :
    (c.removeWaypoint w).2.waypoints = c.waypoints.filter (fun x => x != w) ∧
    (c.removeWaypoint w).1 = decide (0 < c.waypoints.count w) := by
  by_cases h : 0 < c.waypoints.count w
  · have h' : (0 : Int) < ((c.waypoints.count w : Nat) : Int) := by omega
    simp [AgentCluster.removeWaypoint, removeAll, h, h']
  · have h' : ¬ (0 : Int) < ((c.waypoints.count w : Nat) : Int) := by omega
    simp only [AgentCluster.removeWaypoint, removeAll, gt_iff_lt, h', if_false, h,
      decide_False, and_self]

/-- C11: `addWaypoint(w)` turns the waypoint list L into L followed by w, whether
or not w is already in L; `removeWaypoint(w)` turns L into L without any
occurrence of w, all other entries kept in their order and number, and returns
true exactly when w occurred in L. -/
theorem addWaypoint_appends_removeWaypoint_removes_all (c : AgentCluster) (w : WaypointPtr) :
    (c.addWaypoint w).waypoints = c.waypoints ++ [w] ∧
    (c.removeWaypoint w).2.waypoints = c.waypoints.filter (fun x => x != w) ∧
    w ∉ (c.removeWaypoint w).2.waypoints ∧
    List.Sublist (c.removeWaypoint w).2.waypoints c.waypoints ∧
    (∀ x : WaypointPtr, x ≠ w →
      (c.removeWaypoint w).2.waypoints.count x = c.waypoints.count x) ∧
    ((c.removeWaypoint w).1 = true ↔ w ∈ c.waypoints) := by
  obtain ⟨hlist, hret⟩ := removeWaypoint_eq c w
  refine ⟨rfl, hlist, ?_, ?_, ?_, ?_⟩
  · rw [hlist]
    simp [List.mem_filter]
  · rw [hlist]
    exact List.filter_sublist c.waypoints
  · intro x hx
    rw [hlist, List.count_filter]
    simpa using hx
  · rw [hret]
    simp [List.count_pos_iff]

theorem addWaypoint_appends_removeWaypoint_removes_all_witness :
    (some 2 : WaypointPtr) ≠ some 1 ∧
    ((exampleCluster.addWaypoint (some 1)).removeWaypoint (some 1)).2.waypoints.count (some 2) =
      (exampleCluster.addWaypoint (some 1)).waypoints.count (some 2) ∧
    (exampleCluster.addWaypoint (some 1)).waypoints = [some 1, some 2, some 1] ∧
    ((exampleCluster.addWaypoint (some 1)).removeWaypoint (some 1)).2.waypoints = [some 2] :=
  ⟨by decide,
    (addWaypoint_appends_removeWaypoint_removes_all (exampleCluster.addWaypoint (some 1))
      (some 1)).2.2.2.2.1 (some 2) (by decide),
    by decide, by decide⟩

/-- The loop of `dissolve` reads `agentIds` out of range, and so has no defined
result, when it is to run past the end of `agentIds`. -/
theorem dissolveLoop_none {G : Type} (uniform : ℚ → ℚ → G → ℚ × G) (c : AgentCluster) :
    ∀ (n i : Nat) (agents : List Agent) (w : World G),
      i ≤ c.agentIds.length → c.agentIds.length < i + n →
      dissolveLoop uniform c n i agents w = none := by
  intro n
  induction n with
  | zero =>
    intro i agents w h1 h2
    omega
  | succ n ih =>
    intro i agents w h1 h2
    by_cases hi : i < c.agentIds.length
    · have hget : c.agentIds[i]? = some (c.agentIds.get ⟨i, hi⟩) := by
        simp [List.getElem?_eq_getElem hi]
      simp only [dissolveLoop, dissolveBody_some uniform c i agents w _ hget]
      exact ih (i + 1) _ _ (by omega) (by omega)
    · have hget : c.agentIds[i]? = none := by
        simp [List.getElem?_eq_none_iff]
        omega
      simp [dissolveLoop, dissolveBody, hget]

/-- When `count` exceeds the number of entries of `agentIds`, `dissolve` has no
defined result; the first `agentIds.size()` iterations of its loop build and
register their agents, and the next iteration reads `agentIds` out of range. -/
theorem dissolve_count_above_size {G : Type} (uniform : ℚ → ℚ → G → ℚ × G)
    (c : AgentCluster) (w : World G) (hgt : (c.agentIds.length : Int) < c.count) :
    dissolve uniform c w = none ∧
    ∃ (agents : List Agent) (w' : World G),
      dissolveLoop uniform c c.agentIds.length 0 [] w = some (agents, w') ∧
      agents.length = c.agentIds.length ∧ w'.scene = w.scene ++ agents ∧
      dissolveBody uniform c c.agentIds.length agents w' = none := by
  constructor
  · exact dissolveLoop_none uniform c c.count.toNat 0 [] w (by omega) (by omega)
  · obtain ⟨fresh, w', hloop, hscene, hlength, _⟩ :=
      dissolveLoop_spec uniform c (fun _ _ => True) (fun _ _ _ _ => trivial)
        c.agentIds.length 0 [] w (by omega)
    refine ⟨fresh, w', by simpa using hloop, hlength, hscene, ?_⟩
    simp [dissolveBody]

/-- C12, as stated, fails: the example cluster after `setCount(1)` has three ids
and `count = 1`; `dissolve` reports no error, returns one agent, named after the
first id, and registers it in the scene. -/
theorem dissolve_count_mismatch_no_error_counterexample :
    shortCountCluster.count ≠ (shortCountCluster.agentIds.length : Int) ∧
    (dissolve midpointSampler shortCountCluster exampleWorld).map
      (fun r => (r.1.map Agent.name, r.2.scene.map Agent.name)) =
      some (["person_101"], ["person_101"]) := by
  decide

/-- C12, amended: `dissolve` makes no check of `count` against `agentIds`; for
every cluster whose `count` is below the number of entries of `agentIds` it
reports no error, returns as many agents as `count` says (none when `count` is
negative) and registers exactly these in the scene, in order. -/
theorem dissolve_count_below_size {G : Type} (uniform : ℚ → ℚ → G → ℚ × G)
    (c : AgentCluster) (w : World G) (hlt : c.count < (c.agentIds.length : Int)) :
    ∃ (agents : List Agent) (w' : World G),
      dissolve uniform c w = some (agents, w') ∧ agents.length = c.count.toNat ∧
      w'.scene = w.scene ++ agents ∧
      ∀ (i : Nat) (hi : i < agents.length),
        agents[i].id = (i : Int) ∧
        c.agentIds[i]?.map (fun agentId => "person_" ++ to_string agentId) =
          some agents[i].name := by
  obtain ⟨fresh, w', hloop, hscene, hlength, hall⟩ :=
    dissolveLoop_spec uniform c
      (fun i a => a.id = (i : Int) ∧
        c.agentIds[i]?.map (fun agentId => "person_" ++ to_string agentId) = some a.name)
      (fun i agentId g hget => by simp [spawnAgent, initAgent_eq, hget])
      c.count.toNat 0 [] w (by omega)
  refine ⟨fresh, w', by simpa [dissolve] using hloop, hlength, hscene, ?_⟩
  intro i hi
  simpa using hall i hi

theorem dissolve_count_below_size_witness :
    shortCountCluster.count < (shortCountCluster.agentIds.length : Int) ∧
    ∃ (agents : List Agent) (w' : World Nat),
      dissolve midpointSampler shortCountCluster exampleWorld = some (agents, w') ∧
      agents.length = shortCountCluster.count.toNat ∧
      w'.scene = exampleWorld.scene ++ agents ∧
      ∀ (i : Nat) (hi : i < agents.length),
        agents[i].id = (i : Int) ∧
        shortCountCluster.agentIds[i]?.map (fun agentId => "person_" ++ to_string agentId) =
          some agents[i].name :=
  ⟨by decide, dissolve_count_below_size midpointSampler shortCountCluster exampleWorld
    (by decide)⟩

/-- C13: for every cluster whose `agentIds` has `count` entries, two calls of
`dissolve` in a row on the unmodified cluster both return `count` agents, the
agents at the same index agree on type, vmax, default vmax, force factors,
probabilities, maximal talking distance, waypoint mode and base times, and with
footprint (0, 0) they also agree on the position. -/
theorem dissolve_twice_same_scalars {G : Type} (uniform : ℚ → ℚ → G → ℚ × G)
    (c : AgentCluster) (w : World G) (hsize : (c.agentIds.length : Int) = c.count) :
    ∃ (a1 : List Agent) (w1 : World G) (a2 : List Agent) (w2 : World G),
      dissolve uniform c w = some (a1, w1) ∧ dissolve uniform c w1 = some (a2, w2) ∧
      (a1.length : Int) = c.count ∧ (a2.length : Int) = c.count ∧
      ∀ (i : Nat) (h1 : i < a1.length) (h2 : i < a2.length),
        a1[i].type = a2[i].type ∧ a1[i].vmax = a2[i].vmax ∧
        a1[i].vmaxDefault = a2[i].vmaxDefault ∧
        a1[i].forceFactorDesired = a2[i].forceFactorDesired ∧
        a1[i].forceFactorSocial = a2[i].forceFactorSocial ∧
        a1[i].forceFactorObstacle = a2[i].forceFactorObstacle ∧
        a1[i].chattingProbability = a2[i].chattingProbability ∧
        a1[i].tellStoryProbability = a2[i].tellStoryProbability ∧
        a1[i].groupTalkingProbability = a2[i].groupTalkingProbability ∧
        a1[i].talkingAndWalkingProbability = a2[i].talkingAndWalkingProbability ∧
        a1[i].maxTalkingDistance = a2[i].maxTalkingDistance ∧
        a1[i].waypointMode = a2[i].waypointMode ∧
        a1[i].stateTalkingBaseTime = a2[i].stateTalkingBaseTime ∧
        a1[i].stateTellStoryBaseTime = a2[i].stateTellStoryBaseTime ∧
        a1[i].stateGroupTalkingBaseTime = a2[i].stateGroupTalkingBaseTime ∧
        a1[i].stateTalkingAndWalkingBaseTime = a2[i].stateTalkingAndWalkingBaseTime ∧
        (c.distribution.width = 0 → c.distribution.height = 0 →
          a1[i].x = a2[i].x ∧ a1[i].y = a2[i].y) := by
  have hP : ∀ (i : Nat) (agentId : Int) (g : G), c.agentIds[i]? = some agentId →
      carriesScalars c (spawnAgent uniform c i agentId g) ∧
      (c.distribution.width = 0 → c.distribution.height = 0 →
        (spawnAgent uniform c i agentId g).x = c.position.x ∧
        (spawnAgent uniform c i agentId g).y = c.position.y) := by
    intro i agentId g _
    refine ⟨by simp [carriesScalars, spawnAgent, initAgent_eq], ?_⟩
    intro hw hh
    simp [spawnAgent, initAgent_eq, hw, hh, jitter_zero]
  obtain ⟨a1, w1, hd1, _, hlen1, hall1⟩ :=
    dissolve_spec uniform c
      (fun _ a => carriesScalars c a ∧ (c.distribution.width = 0 → c.distribution.height = 0 →
        a.x = c.position.x ∧ a.y = c.position.y)) hP w hsize
  obtain ⟨a2, w2, hd2, _, hlen2, hall2⟩ :=
    dissolve_spec uniform c
      (fun _ a => carriesScalars c a ∧ (c.distribution.width = 0 → c.distribution.height = 0 →
        a.x = c.position.x ∧ a.y = c.position.y)) hP w1 hsize
  refine ⟨a1, w1, a2, w2, hd1, hd2, hlen1, hlen2, ?_⟩
  intro i h1 h2
  obtain ⟨⟨p1, p2, p3, p4, p5, p6, p7, p8, p9, p10, p11, p12, p13, p14, p15, p16⟩, p17⟩ :=
    hall1 i h1
  obtain ⟨⟨q1, q2, q3, q4, q5, q6, q7, q8, q9, q10, q11, q12, q13, q14, q15, q16⟩, q17⟩ :=
    hall2 i h2
  refine ⟨p1.trans q1.symm, p2.trans q2.symm, p3.trans q3.symm, p4.trans q4.symm,
    p5.trans q5.symm, p6.trans q6.symm, p7.trans q7.symm, p8.trans q8.symm,
    p9.trans q9.symm, p10.trans q10.symm, p11.trans q11.symm, p12.trans q12.symm,
    p13.trans q13.symm, p14.trans q14.symm, p15.trans q15.symm, p16.trans q16.symm, ?_⟩
  intro hw hh
  exact ⟨(p17 hw hh).1.trans (q17 hw hh).1.symm, (p17 hw hh).2.trans (q17 hw hh).2.symm⟩

theorem dissolve_twice_same_scalars_witness :
    (exampleCluster.agentIds.length : Int) = exampleCluster.count ∧
    exampleCluster.distribution.width = 0 ∧ exampleCluster.distribution.height = 0 ∧
    ∃ (a1 : List Agent) (w1 : World Nat) (a2 : List Agent) (w2 : World Nat),
      dissolve midpointSampler exampleCluster exampleWorld = some (a1, w1) ∧
      dissolve midpointSampler exampleCluster w1 = some (a2, w2) ∧
      (a1.length : Int) = exampleCluster.count ∧ (a2.length : Int) = exampleCluster.count ∧
      ∀ (i : Nat) (h1 : i < a1.length) (h2 : i < a2.length),
        a1[i].type = a2[i].type ∧ a1[i].vmax = a2[i].vmax ∧
        a1[i].vmaxDefault = a2[i].vmaxDefault ∧
        a1[i].forceFactorDesired = a2[i].forceFactorDesired ∧
        a1[i].forceFactorSocial = a2[i].forceFactorSocial ∧
        a1[i].forceFactorObstacle = a2[i].forceFactorObstacle ∧
        a1[i].chattingProbability = a2[i].chattingProbability ∧
        a1[i].tellStoryProbability = a2[i].tellStoryProbability ∧
        a1[i].groupTalkingProbability = a2[i].groupTalkingProbability ∧
        a1[i].talkingAndWalkingProbability = a2[i].talkingAndWalkingProbability ∧
        a1[i].maxTalkingDistance = a2[i].maxTalkingDistance ∧
        a1[i].waypointMode = a2[i].waypointMode ∧
        a1[i].stateTalkingBaseTime = a2[i].stateTalkingBaseTime ∧
        a1[i].stateTellStoryBaseTime = a2[i].stateTellStoryBaseTime ∧
        a1[i].stateGroupTalkingBaseTime = a2[i].stateGroupTalkingBaseTime ∧
        a1[i].stateTalkingAndWalkingBaseTime = a2[i].stateTalkingAndWalkingBaseTime ∧
        a1[i].x = a2[i].x ∧ a1[i].y = a2[i].y := by
  refine ⟨by decide, by decide, by decide, ?_⟩
  obtain ⟨a1, w1, a2, w2, hd1, hd2, hlen1, hlen2, hall⟩ :=
    dissolve_twice_same_scalars midpointSampler exampleCluster exampleWorld (by decide)
  refine ⟨a1, w1, a2, w2, hd1, hd2, hlen1, hlen2, ?_⟩
  intro i h1 h2
  obtain ⟨p1, p2, p3, p4, p5, p6, p7, p8, p9, p10, p11, p12, p13, p14, p15, p16, p17⟩ :=
    hall i h1 h2
  exact ⟨p1, p2, p3, p4, p5, p6, p7, p8, p9, p10, p11, p12, p13, p14, p15, p16,
    p17 (by decide) (by decide)⟩

/-! ## The distribution footprint -/

/-- C14, as stated, fails: the example cluster has a footprint without negative
dimension, and after `setDistribution(-1, 0)`, `setDistributionWidth(-1)` or
`setDistributionHeight(-1)` it has a negative one. -/
theorem setDistribution_negative_counterexample :
    exampleCluster.footprintOk ∧
    ¬ (exampleCluster.setDistribution (-1) 0).footprintOk ∧
    ¬ (exampleCluster.setDistributionWidth (-1)).footprintOk ∧
    ¬ (exampleCluster.setDistributionHeight (-1)).footprintOk := by
  unfold AgentCluster.footprintOk
  decide

/-- C14, amended: the footprint has no negative dimension after construction,
and every call of the configuration surface other than the three footprint
setters keeps it so; `setDistribution`, `setDistributionWidth` and
`setDistributionHeight` store their arguments unchecked, so after them the
footprint has no negative dimension exactly when the stored arguments are not
negative. -/
theorem footprint_nonnegative_unless_set_negative :
    (∀ (N : Type) (staticid : Int) (normal : ℚ → ℚ → N → ℚ × N) (gen : N) (xIn yIn : ℚ)
      (countIn : Int) (agent_ids : List Int),
      (AgentCluster.new staticid normal gen xIn yIn countIn agent_ids).1.footprintOk) ∧
    (∀ (call : Call) (c : AgentCluster), call.setsFootprint = false →
      c.footprintOk → (call.run c).1.footprintOk) ∧
    (∀ (c : AgentCluster) (w h : ℚ),
      (c.setDistribution w h).distribution = { width := w, height := h } ∧
      ((c.setDistribution w h).footprintOk ↔ 0 ≤ w ∧ 0 ≤ h)) ∧
    (∀ (c : AgentCluster) (w : ℚ), c.footprintOk →
      ((c.setDistributionWidth w).footprintOk ↔ 0 ≤ w)) ∧
    (∀ (c : AgentCluster) (h : ℚ), c.footprintOk →
      ((c.setDistributionHeight h).footprintOk ↔ 0 ≤ h)) := by
  refine ⟨?_, ?_, ?_, ?_, ?_⟩
  · intro N staticid normal gen xIn yIn countIn agent_ids
    simp [AgentCluster.footprintOk, AgentCluster.new]
  · intro call c hcall hc
    cases call
    all_goals first
      | exact hc
      | (simp [Call.setsFootprint] at hcall; done)
      | (simp only [Call.run, AgentCluster.removeWaypoint]; split <;> exact hc)
  · intro c w h
    simp [AgentCluster.footprintOk, AgentCluster.setDistribution, QSizeF.setWidth,
      QSizeF.setHeight]
  · intro c w hc
    simp [AgentCluster.footprintOk, AgentCluster.setDistributionWidth, QSizeF.setWidth, hc.2]
  · intro c h hc
    simp [AgentCluster.footprintOk, AgentCluster.setDistributionHeight, QSizeF.setHeight, hc.1]

theorem footprint_nonnegative_unless_set_negative_witness :
    (Call.setX 3).setsFootprint = false ∧ exampleCluster.footprintOk ∧
    ((Call.setX 3).run exampleCluster).1.footprintOk ∧
    ((exampleCluster.setDistributionWidth 4).footprintOk ↔ (0 : ℚ) ≤ 4) :=
  have hex : exampleCluster.footprintOk := by
    unfold AgentCluster.footprintOk
    decide
  ⟨by decide, hex,
    footprint_nonnegative_unless_set_negative.2.1 (Call.setX 3) exampleCluster (by decide) hex,
    footprint_nonnegative_unless_set_negative.2.2.2.1 exampleCluster 4 hex⟩

/-! ## The inert flag -/

/-- The loop of `dissolve` does not read `shallCreateGroups`. -/
theorem dissolveLoop_setShallCreateGroups {G : Type} (uniform : ℚ → ℚ → G → ℚ × G)
    (c : AgentCluster) (b : Bool) :
    ∀ (n i : Nat) (agents : List Agent) (w : World G),
      dissolveLoop uniform (c.setShallCreateGroups b) n i agents w =
        dissolveLoop uniform c n i agents w := by
  intro n
  induction n with
  | zero => intro i agents w; rfl
  | succ n ih =>
    intro i agents w
    have hbody : dissolveBody uniform (c.setShallCreateGroups b) i agents w =
        dissolveBody uniform c i agents w := rfl
    simp only [dissolveLoop, hbody]
    cases dissolveBody uniform c i agents w with
    | none => rfl
    | some r => exact ih (i + 1) r.1 r.2

/-- C15: `setShallCreateGroups(b)` followed by `getShallCreateGroups()` returns b,
and two clusters that differ only in `shallCreateGroups` give the same result of
`dissolve` from the same generator and scene: the same returned agents, the same
scene and the same generator state afterwards. -/
theorem shallCreateGroups_stored_and_inert {G : Type} (uniform : ℚ → ℚ → G → ℚ × G)
    (c1 c2 : AgentCluster) (b : Bool) (w : World G)
    (hdiff : c1.setShallCreateGroups c2.shallCreateGroups = c2) :
    (c1.setShallCreateGroups b).getShallCreateGroups = b ∧
    dissolve uniform c1 w = dissolve uniform c2 w := by
  refine ⟨rfl, ?_⟩
  rw [← hdiff]
  exact (dissolveLoop_setShallCreateGroups uniform c1 c2.shallCreateGroups _ 0 [] w).symm

theorem shallCreateGroups_stored_and_inert_witness :
    exampleCluster.setShallCreateGroups (exampleCluster.setShallCreateGroups false).shallCreateGroups
      = exampleCluster.setShallCreateGroups false ∧
    exampleCluster.shallCreateGroups ≠ (exampleCluster.setShallCreateGroups false).shallCreateGroups ∧
    (exampleCluster.setShallCreateGroups true).getShallCreateGroups = true ∧
    dissolve midpointSampler exampleCluster exampleWorld =
      dissolve midpointSampler (exampleCluster.setShallCreateGroups false) exampleWorld :=
  ⟨rfl, by decide,
    shallCreateGroups_stored_and_inert midpointSampler exampleCluster
      (exampleCluster.setShallCreateGroups false) true exampleWorld rfl⟩

/-! ## Waiting queues -/

/-- C16, as stated, fails: for a waiting queue that does not implement the
Waypoint capability, `addWaitingQueue` on the example cluster reports nothing and
appends the null reference to the waypoint list. -/
theorem addWaitingQueue_appends_null_counterexample :
    dynamic_cast_Waypoint (WaitingQueuePtr.notWaypointAt 5) = none ∧
    (exampleCluster.addWaitingQueue (WaitingQueuePtr.notWaypointAt 5)).waypoints =
      [some 1, some 2, none] ∧
    (exampleCluster.addWaitingQueue (WaitingQueuePtr.notWaypointAt 5)).waypoints ≠
      exampleCluster.waypoints ∧
    (none : WaypointPtr) ∈
      (exampleCluster.addWaitingQueue (WaitingQueuePtr.notWaypointAt 5)).waypoints := by
  decide

/-- C16, amended: for every waiting queue whose cast to Waypoint yields null,
`addWaitingQueue` reports no error and appends the null reference at the end of
the waypoint list, leaving the entries before it and every other member of the
cluster as they were. -/
theorem addWaitingQueue_of_cast_null (c : AgentCluster) (q : WaitingQueuePtr)
    (hcast : dynamic_cast_Waypoint q = none) :
    (c.addWaitingQueue q).waypoints = c.waypoints ++ [none] ∧
    c.addWaitingQueue q = { c with waypoints := c.waypoints ++ [none] } := by
  simp [AgentCluster.addWaitingQueue, hcast]

theorem addWaitingQueue_of_cast_null_witness :
    dynamic_cast_Waypoint (WaitingQueuePtr.notWaypointAt 5) = none ∧
    (exampleCluster.addWaitingQueue (WaitingQueuePtr.notWaypointAt 5)).waypoints =
      exampleCluster.waypoints ++ [none] ∧
    exampleCluster.addWaitingQueue (WaitingQueuePtr.notWaypointAt 5) =
      { exampleCluster with waypoints := exampleCluster.waypoints ++ [none] } :=
  ⟨rfl, addWaitingQueue_of_cast_null exampleCluster (WaitingQueuePtr.notWaypointAt 5) rfl⟩

/-! ## Notifications -/

/-- C17: `setPosition(x, y)`, `setX(x)` and `setY(y)` each store the new centroid
and emit exactly one `positionChanged` whose payload is the centroid after the
store; `setX` keeps y and `setY` keeps x; `setDistribution`,
`setDistributionWidth` and `setDistributionHeight` emit nothing. -/
theorem position_setters_notify_footprint_setters_silent (c : AgentCluster) (x y w h : ℚ) :
    ((c.setPosition x y).1.position = { x := x, y := y } ∧
      (c.setPosition x y).2 =
        [Signal.positionChanged (c.setPosition x y).1.position.x
          (c.setPosition x y).1.position.y]) ∧
    ((c.setX x).1.position = { x := x, y := c.position.y } ∧
      (c.setX x).2 =
        [Signal.positionChanged (c.setX x).1.position.x (c.setX x).1.position.y]) ∧
    ((c.setY y).1.position = { x := c.position.x, y := y } ∧
      (c.setY y).2 =
        [Signal.positionChanged (c.setY y).1.position.x (c.setY y).1.position.y]) ∧
    ((Call.setDistribution w h).run c).2 = [] ∧
    ((Call.setDistributionWidth w).run c).2 = [] ∧
    ((Call.setDistributionHeight h).run c).2 = [] := by
  refine ⟨⟨rfl, rfl⟩, ⟨rfl, rfl⟩, ⟨rfl, rfl⟩, rfl, rfl, rfl⟩

/-! ## The order of the random draws -/

/-- One iteration with a traced sampler builds the agent that the underlying
sampler builds from the underlying generator state. -/
theorem spawnAgent_traced {G : Type} (uniform : ℚ → ℚ → G → ℚ × G) (c : AgentCluster)
    (i : Nat) (agentId : Int) (g : G × List Draw) :
    spawnAgent (traced uniform) c i agentId g = spawnAgent uniform c i agentId g.1 := by
  by_cases hw : c.distribution.width = 0 <;> by_cases hh : c.distribution.height = 0 <;>
    simp [spawnAgent, jitter, traced, hw, hh]

/-- One iteration with a traced sampler moves the underlying generator state as
the underlying sampler does. -/
theorem rngAfter_traced_fst {G : Type} (uniform : ℚ → ℚ → G → ℚ × G) (c : AgentCluster)
    (g : G × List Draw) :
    (rngAfter (traced uniform) c g).1 = rngAfter uniform c g.1 := by
  by_cases hw : c.distribution.width = 0 <;> by_cases hh : c.distribution.height = 0 <;>
    simp [rngAfter, jitter, traced, hw, hh]

/-- One iteration with a traced sampler appends to the log the draws of the agent
it builds: the x draw first, then the y draw, each only for a nonzero dimension. -/
theorem rngAfter_traced_log {G : Type} (uniform : ℚ → ℚ → G → ℚ × G) (c : AgentCluster)
    (i : Nat) (agentId : Int) (g : G × List Draw) :
    ∃ ds : List Draw, (rngAfter (traced uniform) c g).2 = g.2 ++ ds ∧
      accountsFor c (spawnAgent (traced uniform) c i agentId g) ds := by
  by_cases hw : c.distribution.width = 0 <;> by_cases hh : c.distribution.height = 0
  · exact ⟨[], by simp [rngAfter, jitter, hw, hh],
      [], [], rfl, by simp [spawnAgent, initAgent_eq, jitter, hw],
      by simp [spawnAgent, initAgent_eq, jitter, hh]⟩
  · exact ⟨[Draw.mk (-c.distribution.height / 2) (c.distribution.height / 2)
        (uniform (-c.distribution.height / 2) (c.distribution.height / 2) g.1).1],
      by simp [rngAfter, jitter, traced, hw, hh],
      [], _, rfl, by simp [spawnAgent, initAgent_eq, jitter, hw],
      by simp [spawnAgent, initAgent_eq, jitter, traced, hw, hh]⟩
  · exact ⟨[Draw.mk (-c.distribution.width / 2) (c.distribution.width / 2)
        (uniform (-c.distribution.width / 2) (c.distribution.width / 2) g.1).1],
      by simp [rngAfter, jitter, traced, hw, hh],
      _, [], (List.append_nil _).symm,
      by simp [spawnAgent, initAgent_eq, jitter, traced, hw],
      by simp [spawnAgent, initAgent_eq, jitter, hh]⟩
  · exact ⟨[Draw.mk (-c.distribution.width / 2) (c.distribution.width / 2)
        (uniform (-c.distribution.width / 2) (c.distribution.width / 2) g.1).1,
      Draw.mk (-c.distribution.height / 2) (c.distribution.height / 2)
        (uniform (-c.distribution.height / 2) (c.distribution.height / 2)
          (uniform (-c.distribution.width / 2) (c.distribution.width / 2) g.1).2).1],
      by simp [rngAfter, jitter, traced, hw, hh],
      [_], [_], rfl,
      by simp [spawnAgent, initAgent_eq, jitter, traced, hw],
      by simp [spawnAgent, initAgent_eq, jitter, traced, hw, hh]⟩

/-- The draws attributed to one agent are as many as the footprint has nonzero
dimensions. -/
theorem accountsFor_length (c : AgentCluster) (a : Agent) (ds : List Draw)
    (h : accountsFor c a ds) : ds.length = nonzeroDims c := by
  obtain ⟨xs, ys, hds, hx, hy⟩ := h
  subst hds
  by_cases hw : c.distribution.width = 0 <;> by_cases hh : c.distribution.height = 0
  · simp only [hw, hh, ne_eq, not_true_eq_false, if_false] at hx hy
    simp [nonzeroDims, hw, hh, hx.1, hy.1]
  · simp only [hw, hh, ne_eq, not_true_eq_false, not_false_eq_true, if_false, if_true] at hx hy
    obtain ⟨d, hys, _⟩ := hy
    simp [nonzeroDims, hw, hh, hx.1, hys]
  · simp only [hw, hh, ne_eq, not_true_eq_false, not_false_eq_true, if_false, if_true] at hx hy
    obtain ⟨d, hxs, _⟩ := hx
    simp [nonzeroDims, hw, hh, hxs, hy.1]
  · simp only [hw, hh, ne_eq, not_false_eq_true, if_true] at hx hy
    obtain ⟨d, hxs, _⟩ := hx
    obtain ⟨d', hys, _⟩ := hy
    simp [nonzeroDims, hw, hh, hxs, hys]

theorem flatten_accountsFor_length (c : AgentCluster) (agents : List Agent)
    (draws : List (List Draw)) (h : List.Forall₂ (accountsFor c) agents draws) :
    draws.flatten.length = agents.length * nonzeroDims c := by
  induction h with
  | nil => simp
  | cons hhead _ ih =>
    simp only [List.flatten_cons, List.length_append, List.length_cons, ih,
      accountsFor_length c _ _ hhead]
    ring

/-- The log after the loop of `dissolve` with a traced sampler is the log before
followed by the draws of the agents the loop appended, agent by agent. -/
theorem dissolveLoop_traced_log {G : Type} (uniform : ℚ → ℚ → G → ℚ × G) (c : AgentCluster) :
    ∀ (n i : Nat) (agents : List Agent) (w : World (G × List Draw))
      (r : List Agent × World (G × List Draw)),
      dissolveLoop (traced uniform) c n i agents w = some r →
      ∃ (fresh : List Agent) (draws : List (List Draw)), r.1 = agents ++ fresh ∧
        r.2.rng.2 = w.rng.2 ++ draws.flatten ∧ List.Forall₂ (accountsFor c) fresh draws := by
  intro n
  induction n with
  | zero =>
    intro i agents w r h
    simp only [dissolveLoop, Option.some.injEq] at h
    subst h
    exact ⟨[], [], by simp, by simp, List.Forall₂.nil⟩
  | succ n ih =>
    intro i agents w r h
    cases hget : c.agentIds[i]? with
    | none => simp [dissolveLoop, dissolveBody, hget] at h
    | some agentId =>
      simp only [dissolveLoop, dissolveBody_some (traced uniform) c i agents w agentId hget] at h
      obtain ⟨fresh, draws, hagents, hlog, hacc⟩ := ih _ _ _ r h
      obtain ⟨ds, hds, hhead⟩ := rngAfter_traced_log uniform c i agentId w.rng
      refine ⟨spawnAgent (traced uniform) c i agentId w.rng :: fresh, ds :: draws, ?_, ?_,
        List.Forall₂.cons hhead hacc⟩
      · rw [hagents]
        simp
      · rw [hlog]
        simp only [hds, List.flatten_cons, List.append_assoc]

/-- The loop of `dissolve` with a traced sampler is, the log apart, the loop with
the underlying sampler. -/
theorem dissolveLoop_traced_eraseLog {G : Type} (uniform : ℚ → ℚ → G → ℚ × G)
    (c : AgentCluster) :
    ∀ (n i : Nat) (agents : List Agent) (w : World (G × List Draw)),
      (dissolveLoop (traced uniform) c n i agents w).map (fun r => (r.1, r.2.eraseLog)) =
        dissolveLoop uniform c n i agents w.eraseLog := by
  intro n
  induction n with
  | zero =>
    intro i agents w
    simp [dissolveLoop]
  | succ n ih =>
    intro i agents w
    cases hget : c.agentIds[i]? with
    | none => simp [dissolveLoop, dissolveBody, hget]
    | some agentId =>
      simp only [dissolveLoop, dissolveBody_some (traced uniform) c i agents w agentId hget,
        dissolveBody_some uniform c i agents w.eraseLog agentId hget]
      rw [ih]
      simp [World.eraseLog, spawnAgent_traced, rngAfter_traced_fst]

/-- C18, as stated, fails: in the example cluster with footprint (4, 0) and a
sampler whose every draw over the width is 2 - 2 ^ -51, each agent's x is the
double sum of 10 and that draw, which is 12, and not 10 plus the draw. -/
theorem dissolve_draw_sum_rounding_counterexample :
    (wideCluster.agentIds.length : Int) = wideCluster.count ∧
    wideCluster.position.x = 10 ∧ wideCluster.distribution.width = 4 ∧
    (∀ g : Nat, (belowUpperSampler (-wideCluster.distribution.width / 2)
      (wideCluster.distribution.width / 2) g).1 = 2 - 1 / 2 ^ 51) ∧
    ∃ (agents : List Agent) (w' : World Nat),
      dissolve belowUpperSampler wideCluster exampleWorld = some (agents, w') ∧
      (agents.length : Int) = 3 ∧
      ∀ (i : Nat) (hi : i < agents.length),
        agents[i].x = 12 ∧ agents[i].x ≠ wideCluster.position.x + (2 - 1 / 2 ^ 51) := by
  have hw : wideCluster.distribution.width = 4 := rfl
  have hx : wideCluster.position.x = 10 := rfl
  have hsize : (wideCluster.agentIds.length : Int) = wideCluster.count := by decide
  refine ⟨hsize, hx, hw, ?_, ?_⟩
  · intro g
    rw [hw]
    simp only [belowUpperSampler]
    norm_num
  · obtain ⟨agents, w', hd, _, hlen, hall⟩ :=
      dissolve_spec belowUpperSampler wideCluster
        (fun _ a => a.x = 12 ∧ a.x ≠ wideCluster.position.x + (2 - 1 / 2 ^ 51))
        (fun i agentId g _ => by
          have hval : (spawnAgent belowUpperSampler wideCluster i agentId g).x = 12 := by
            simp only [spawnAgent, initAgent_eq]
            rw [hw, hx, jitter_of_ne belowUpperSampler _ _ _ (by norm_num)]
            simp only [belowUpperSampler, doubleAdd]
            have harg : (10 + (4 / 2 - 4 / 2 / 2 ^ 52) : ℚ) = 12 - 1 / 2 ^ 51 := by norm_num
            rw [harg, roundDouble_twelve_sub]
          refine ⟨hval, ?_⟩
          rw [hval, hx]
          norm_num) exampleWorld hsize
    exact ⟨agents, w', hd, hlen, hall⟩

/-- C18, amended: for every cluster whose `agentIds` has `count` entries and every
footprint, the draws `dissolve` makes are, in order, those of agent 0, agent 1,
and so on, for each agent the x draw over the width and then the y draw over the
height, a draw being left out when its dimension is zero; so there are `count`
times the number of nonzero dimensions of them.  Each agent's x is the double
sum of the centroid x and its x draw, or the centroid x when the width is zero,
likewise for y, and its recorded initial position is its live position. -/
theorem dissolve_draw_order {G : Type} (uniform : ℚ → ℚ → G → ℚ × G) (c : AgentCluster)
    (g : G) (scene : List Agent) (hsize : (c.agentIds.length : Int) = c.count) :
    ∃ (agents : List Agent) (w' : World (G × List Draw)) (draws : List (List Draw)),
      dissolve (traced uniform) c { rng := (g, []), scene := scene } = some (agents, w') ∧
      dissolve uniform c { rng := g, scene := scene } = some (agents, w'.eraseLog) ∧
      w'.rng.2 = draws.flatten ∧ List.Forall₂ (accountsFor c) agents draws ∧
      w'.rng.2.length = c.count.toNat * nonzeroDims c ∧
      ∀ (i : Nat) (hi : i < agents.length),
        agents[i].id = (i : Int) ∧
        (c.distribution.width = 0 → agents[i].x = c.position.x) ∧
        (c.distribution.height = 0 → agents[i].y = c.position.y) ∧
        agents[i].initialPosX = agents[i].x ∧ agents[i].initialPosY = agents[i].y := by
  obtain ⟨agents, w', hd, _, hlen, hall⟩ :=
    dissolve_spec (traced uniform) c
      (fun i a => a.id = (i : Int) ∧ (c.distribution.width = 0 → a.x = c.position.x) ∧
        (c.distribution.height = 0 → a.y = c.position.y) ∧
        a.initialPosX = a.x ∧ a.initialPosY = a.y)
      (fun i agentId s _ => by
        refine ⟨?_, fun hw => ?_, fun hh => ?_, ?_, ?_⟩
        · simp [spawnAgent, initAgent_eq]
        · simp [spawnAgent, initAgent_eq, hw, jitter_zero]
        · simp [spawnAgent, initAgent_eq, hh, jitter_zero]
        · simp [spawnAgent, initAgent_eq]
        · simp [spawnAgent, initAgent_eq])
      { rng := (g, []), scene := scene } hsize
  obtain ⟨fresh, draws, hfresh, hlog, hacc⟩ := dissolveLoop_traced_log uniform c _ _ _ _ _ hd
  have hfresh' : fresh = agents := by simpa using hfresh.symm
  subst hfresh'
  have hlog' : w'.rng.2 = draws.flatten := by simpa using hlog
  have herase := dissolveLoop_traced_eraseLog uniform c c.count.toNat 0 []
    { rng := (g, []), scene := scene }
  have hd' : dissolveLoop (traced uniform) c c.count.toNat 0 []
      { rng := (g, []), scene := scene } = some (fresh, w') := hd
  rw [hd'] at herase
  refine ⟨fresh, w', draws, hd, herase.symm, hlog', hacc, ?_, hall⟩
  rw [hlog', flatten_accountsFor_length c fresh draws hacc]
  have : fresh.length = c.count.toNat := by omega
  rw [this]

theorem dissolve_draw_order_witness :
    (wideCluster.agentIds.length : Int) = wideCluster.count ∧
    wideCluster.distribution.height = 0 ∧
    (dissolve (traced alternatingSampler) wideCluster { rng := (0, []), scene := [] }).map
      (fun r => r.2.rng.2) =
      some [{ lo := -2, hi := 2, value := -2 }, { lo := -2, hi := 2, value := 2 },
        { lo := -2, hi := 2, value := -2 }] ∧
    ∃ (agents : List Agent) (w' : World (Nat × List Draw)) (draws : List (List Draw)),
      dissolve (traced alternatingSampler) wideCluster { rng := (0, []), scene := [] } =
        some (agents, w') ∧
      w'.rng.2 = draws.flatten ∧ List.Forall₂ (accountsFor wideCluster) agents draws ∧
      w'.rng.2.length = wideCluster.count.toNat * nonzeroDims wideCluster ∧
      ∀ (i : Nat) (hi : i < agents.length),
        agents[i].id = (i : Int) ∧ agents[i].y = wideCluster.position.y ∧
        agents[i].initialPosX = agents[i].x ∧ agents[i].initialPosY = agents[i].y := by
  refine ⟨by decide, by decide, ?_, ?_⟩
  · simp [dissolve, dissolveLoop, dissolveBody, wideCluster, exampleCluster, AgentCluster.new,
      pushIds, AgentCluster.addWaypoint, AgentCluster.setDistribution, QSizeF.setWidth,
      QSizeF.setHeight, jitter, traced, alternatingSampler, World.addAgent]
    norm_num
  obtain ⟨agents, w', draws, hd, _, hlog, hacc, hlen, hall⟩ :=
    dissolve_draw_order alternatingSampler wideCluster 0 [] (by decide)
  exact ⟨agents, w', draws, hd, hlog, hacc, hlen,
    fun i hi => ⟨(hall i hi).1, (hall i hi).2.2.1 (by decide), (hall i hi).2.2.2.1,
      (hall i hi).2.2.2.2⟩⟩

/-! ## The agent-id counter -/

/-- C19, as stated, fails: with the counter at 2147483647, two clusters
constructed one after the other with `countIn = 2` and id lists of another
length both hold 2147483647 and -2147483648, which is not the run 2147483647,
2147483648. -/
theorem construct_overflow_counterexample :
    (2 : Int) ≠ (([] : List Int).length : Int) ∧ (2 : Int) ≠ (([5] : List Int).length : Int) ∧
    (construct meanSampler { staticid := 2147483647, generator := 0 } 0 0 2 []).1.agentIds =
      [2147483647, -2147483648] ∧
    (construct meanSampler
      (construct meanSampler { staticid := 2147483647, generator := 0 } 0 0 2 []).2
      1 1 2 [5]).1.agentIds = [2147483647, -2147483648] ∧
    (construct meanSampler { staticid := 2147483647, generator := 0 } 0 0 2 []).1.agentIds ≠
      (List.range (2 : Int).toNat).map (fun (i : Nat) => (2147483647 : Int) + (i : Int)) := by
  decide

/-- C19, amended: the constructor reads the agent-id counter and leaves it as it
is; so two clusters constructed one after the other with the same `countIn` and
id lists of another length get the same synthesized ids, and as long as the
counter plus `countIn - 1` does not exceed 2147483647 these are the run that
starts at the counter, which for a positive `countIn` both clusters contain. -/
theorem construct_reads_staticid_only {N : Type} (normal : ℚ → ℚ → N → ℚ × N)
    (gl : Globals N) (x1 y1 x2 y2 : ℚ) (countIn : Int) (ids1 ids2 : List Int)
    (h1 : countIn ≠ (ids1.length : Int)) (h2 : countIn ≠ (ids2.length : Int)) :
    (construct normal gl x1 y1 countIn ids1).2.staticid = gl.staticid ∧
    (construct normal (construct normal gl x1 y1 countIn ids1).2 x2 y2 countIn ids2).1.agentIds =
      (construct normal gl x1 y1 countIn ids1).1.agentIds ∧
    (-2147483648 ≤ gl.staticid → gl.staticid + countIn - 1 ≤ 2147483647 →
      (construct normal gl x1 y1 countIn ids1).1.agentIds =
        (List.range countIn.toNat).map (fun (i : Nat) => gl.staticid + (i : Int)) ∧
      (0 < countIn →
        gl.staticid ∈ (construct normal gl x1 y1 countIn ids1).1.agentIds ∧
        gl.staticid ∈
          (construct normal (construct normal gl x1 y1 countIn ids1).2 x2 y2 countIn
            ids2).1.agentIds)) := by
  have hpush : ∀ (gl' : Globals N) (x y : ℚ) (ids : List Int), countIn ≠ (ids.length : Int) →
      (construct normal gl' x y countIn ids).1.agentIds =
        pushIds gl'.staticid countIn.toNat 0 [] := by
    intro gl' x y ids hne
    simp [construct, AgentCluster.new, hne]
  have hkeep : (construct normal gl x1 y1 countIn ids1).2.staticid = gl.staticid := rfl
  have hsecond := hpush (construct normal gl x1 y1 countIn ids1).2 x2 y2 ids2 h2
  rw [hkeep] at hsecond
  have hsame : (construct normal (construct normal gl x1 y1 countIn ids1).2 x2 y2 countIn
      ids2).1.agentIds = (construct normal gl x1 y1 countIn ids1).1.agentIds := by
    rw [hsecond, hpush gl x1 y1 ids1 h1]
  refine ⟨hkeep, hsame, ?_⟩
  intro hlo hhi
  have hrun : (construct normal gl x1 y1 countIn ids1).1.agentIds =
      (List.range countIn.toNat).map (fun (i : Nat) => gl.staticid + (i : Int)) := by
    rw [hpush gl x1 y1 ids1 h1]
    exact pushIds_run gl.staticid countIn.toNat hlo (fun hpos => by omega)
  refine ⟨hrun, ?_⟩
  intro hpos
  have hmem : gl.staticid ∈
      (List.range countIn.toNat).map (fun (i : Nat) => gl.staticid + (i : Int)) := by
    rw [List.mem_map]
    exact ⟨0, by rw [List.mem_range]; omega, by simp⟩
  rw [hsame, hrun]
  exact ⟨hmem, hmem⟩

theorem construct_reads_staticid_only_witness :
    (3 : Int) ≠ (([] : List Int).length : Int) ∧ (3 : Int) ≠ (([5] : List Int).length : Int) ∧
    (-2147483648 : Int) ≤ 40 ∧ (40 : Int) + 3 - 1 ≤ 2147483647 ∧ (0 : Int) < 3 ∧
    (construct meanSampler { staticid := 40, generator := 0 } 0 0 3 []).2.staticid = 40 ∧
    (construct meanSampler (construct meanSampler { staticid := 40, generator := 0 } 0 0 3 []).2
      1 1 3 [5]).1.agentIds =
      (construct meanSampler { staticid := 40, generator := 0 } 0 0 3 []).1.agentIds ∧
    (construct meanSampler { staticid := 40, generator := 0 } 0 0 3 []).1.agentIds =
      (List.range (3 : Int).toNat).map (fun (i : Nat) => (40 : Int) + (i : Int)) ∧
    (construct meanSampler { staticid := 40, generator := 0 } 0 0 3 []).1.agentIds =
      [40, 41, 42] :=
  ⟨by decide, by decide, by decide, by decide, by decide,
    (construct_reads_staticid_only meanSampler { staticid := 40, generator := 0 } 0 0 1 1 3
      [] [5] (by decide) (by decide)).1,
    (construct_reads_staticid_only meanSampler { staticid := 40, generator := 0 } 0 0 1 1 3
      [] [5] (by decide) (by decide)).2.1,
    ((construct_reads_staticid_only meanSampler { staticid := 40, generator := 0 } 0 0 1 1 3
      [] [5] (by decide) (by decide)).2.2 (by decide) (by decide)).1,
    by decide⟩

/-! ## The frame of the spawn operation -/

/-- C20: a call of `dissolve` leaves the cluster, all its members, as it was; so
for every cluster whose `agentIds` has `count` entries a second call returns
agents with the same local indices and the same names as the first, and after
the two calls the scene holds the agents of both batches, twice `count` more
than before. -/
theorem dissolve_keeps_cluster_and_repeats_identities {G : Type}
    (uniform : ℚ → ℚ → G → ℚ × G) (s : ProgramState G)
    (hsize : (s.cluster.agentIds.length : Int) = s.cluster.count) :
    ∃ (a1 : List Agent) (s1 : ProgramState G) (a2 : List Agent) (s2 : ProgramState G),
      callDissolve uniform s = some (a1, s1) ∧ s1.cluster = s.cluster ∧
      callDissolve uniform s1 = some (a2, s2) ∧ s2.cluster = s.cluster ∧
      (a1.length : Int) = s.cluster.count ∧ (a2.length : Int) = s.cluster.count ∧
      (∀ (i : Nat) (h1 : i < a1.length) (h2 : i < a2.length),
        a1[i].id = a2[i].id ∧ a1[i].name = a2[i].name) ∧
      s2.world.scene = s.world.scene ++ a1 ++ a2 ∧
      (s2.world.scene.length : Int) = (s.world.scene.length : Int) + 2 * s.cluster.count := by
  have hP : ∀ (i : Nat) (agentId : Int) (g : G), s.cluster.agentIds[i]? = some agentId →
      (spawnAgent uniform s.cluster i agentId g).id = (i : Int) ∧
      s.cluster.agentIds[i]?.map (fun agentId => "person_" ++ to_string agentId) =
        some (spawnAgent uniform s.cluster i agentId g).name := by
    intro i agentId g hget
    simp [spawnAgent, initAgent_eq, hget]
  obtain ⟨a1, w1, hd1, hscene1, hlen1, hall1⟩ :=
    dissolve_spec uniform s.cluster
      (fun i a => a.id = (i : Int) ∧
        s.cluster.agentIds[i]?.map (fun agentId => "person_" ++ to_string agentId) =
          some a.name) hP s.world hsize
  obtain ⟨a2, w2, hd2, hscene2, hlen2, hall2⟩ :=
    dissolve_spec uniform s.cluster
      (fun i a => a.id = (i : Int) ∧
        s.cluster.agentIds[i]?.map (fun agentId => "person_" ++ to_string agentId) =
          some a.name) hP w1 hsize
  refine ⟨a1, { s with world := w1 }, a2, { s with world := w2 }, ?_, rfl, ?_, rfl,
    hlen1, hlen2, ?_, ?_, ?_⟩
  · simp [callDissolve, hd1]
  · simp [callDissolve, hd2]
  · intro i h1 h2
    obtain ⟨p1, p2⟩ := hall1 i h1
    obtain ⟨q1, q2⟩ := hall2 i h2
    refine ⟨p1.trans q1.symm, ?_⟩
    have := p2.symm.trans q2
    simpa using this
  · show w2.scene = s.world.scene ++ a1 ++ a2
    rw [hscene2, hscene1]
  · show (w2.scene.length : Int) = _
    rw [hscene2, hscene1, List.length_append, List.length_append]
    push_cast
    omega

theorem dissolve_keeps_cluster_and_repeats_identities_witness :
    (exampleCluster.agentIds.length : Int) = exampleCluster.count ∧
    ∃ (a1 : List Agent) (s1 : ProgramState Nat) (a2 : List Agent) (s2 : ProgramState Nat),
      callDissolve midpointSampler { cluster := exampleCluster, world := exampleWorld } =
        some (a1, s1) ∧ s1.cluster = exampleCluster ∧
      callDissolve midpointSampler s1 = some (a2, s2) ∧ s2.cluster = exampleCluster ∧
      (a1.length : Int) = exampleCluster.count ∧ (a2.length : Int) = exampleCluster.count ∧
      (∀ (i : Nat) (h1 : i < a1.length) (h2 : i < a2.length),
        a1[i].id = a2[i].id ∧ a1[i].name = a2[i].name) ∧
      s2.world.scene = exampleWorld.scene ++ a1 ++ a2 ∧
      (s2.world.scene.length : Int) =
        (exampleWorld.scene.length : Int) + 2 * exampleCluster.count :=
  ⟨by decide,
    dissolve_keeps_cluster_and_repeats_identities midpointSampler
      { cluster := exampleCluster, world := exampleWorld } (by decide)⟩

end Pedsim
